import Mathlib

/-!
Shallow embedding of `src/spacetimedb/src/lib.rs` (SpaceChatDB): a
multi-party call-room coordinator over a relational store.

Modelling conventions:
* `Identity`, `Uuid`, `Timestamp` are `Nat` (opaque, equality-comparable).
* Each table is a `List` of rows inside the `DB` state; `#[auto_inc]`
  primary keys are modelled by a counter in the state, assigned at insert.
* Fresh `Uuid` generation (`new_uuid_v7`/`new_uuid_v4`) is modelled by the
  `next_room_id` counter and always succeeds.
* `f32` fields are modelled as `Rat` (the code never computes with them,
  it only stores and copies them).
* Each reducer `f(ctx, args) -> Result<(), String>` becomes
  `f … (s : DB) : Except String Unit × DB`, returning the result value and
  the post-state; an early `return Err(..)` yields the state unchanged at
  that point, mirroring the sequential Rust control flow.
* Secondary-index scans (`by_room().filter`, `by_identity().filter`) are
  `List.filter`/`List.find?` over the row list in primary-key (insertion)
  order; a `filter(..).find(pred)` chain is fused into a single `find?`
  with the conjunction of the predicates.
* A `for`-loop that updates each collected row by primary key is a
  pointwise `List.map` (the collected rows have pairwise distinct ids and
  the update keeps the id).
-/

namespace SpaceChat

inductive CallType where
  | Voice
  | Video
deriving DecidableEq, Repr

inductive ParticipantState where
  | Invited
  | Joined
deriving DecidableEq, Repr

structure User where
  identity : Nat
  nickname : String
  connected_at : Nat
deriving DecidableEq, Repr

structure ChatMessage where
  id : Nat
  sender : Nat
  sent_at : Nat
  text : String
deriving DecidableEq, Repr

structure CallRoom where
  room_id : Nat
  call_type : CallType
  created_at : Nat
  creator : Nat
deriving DecidableEq, Repr

structure CallParticipant where
  id : Nat
  room_id : Nat
  identity : Nat
  state : ParticipantState
  invited_by : Nat
  joined_at : Option Nat
  muted : Bool
  deafened : Bool
  cam_off : Bool
  server_muted : Bool
deriving DecidableEq, Repr

structure MediaSettings where
  id : Nat
  audio_target_sample_rate : Nat
  audio_frame_ms : Nat
  audio_max_frame_bytes : Nat
  audio_talking_rms_threshold : Rat
  video_width : Nat
  video_height : Nat
  video_fps : Nat
  video_jpeg_quality : Rat
  video_max_frame_bytes : Nat
  video_iframe_interval : Nat
deriving DecidableEq, Repr

structure AudioFrameEvent where
  room_id : Nat
  from_ : Nat
  seq : Nat
  sample_rate : Nat
  channels : Nat
  rms : Rat
  pcm16le : List Nat
deriving DecidableEq, Repr

structure VideoFrameEvent where
  room_id : Nat
  from_ : Nat
  seq : Nat
  width : Nat
  height : Nat
  is_iframe : Bool
  jpeg : List Nat
deriving DecidableEq, Repr

structure DB where
  users : List User
  chat_messages : List ChatMessage
  next_message_id : Nat
  call_rooms : List CallRoom
  call_participants : List CallParticipant
  next_participant_id : Nat
  next_room_id : Nat
  media_settings : List MediaSettings
  audio_frame_events : List AudioFrameEvent
  video_frame_events : List VideoFrameEvent
deriving DecidableEq, Repr

def emptyDB : DB where
  users := []
  chat_messages := []
  next_message_id := 1
  call_rooms := []
  call_participants := []
  next_participant_id := 1
  next_room_id := 0
  media_settings := []
  audio_frame_events := []
  video_frame_events := []

/-! Error message strings, verbatim from the source. -/

def errSingletonMissing : String := "media_settings singleton not found"

def errNicknameEmpty : String := "Nickname cannot be empty"

def errNicknameLong : String := "Nickname must be <= 32 characters"

def errUserNotFound : String := "User not found"

def errMessageEmpty : String := "Message cannot be empty"

def errMessageLong : String := "Message must be <= 500 characters"

def errNeedTarget : String := "Need at least one target"

def errTooManyTargets : String := "Cannot invite more than 15 targets"

def errAlreadyInCall : String := "You are already in a call"

def errInviteSelf : String := "Cannot invite yourself"

def errTargetOffline : String := "A target is not online"

def errTargetInCall : String := "A target is already in a call"

def errNotJoinedHere : String := "You are not joined in that room"

def errInviteeOffline : String := "Target is not online"

def errInviteeInCall : String := "Target is already in a call"

def errInviteeInRoom : String := "Target is already in this room"

def errNotInvited : String := "Not invited to this room"

def errNotInvitedState : String := "Not in invited state"

def errJoinedElsewhere : String := "Already joined in another room"

def errNotInRoom : String := "Not in this room"

def errNotJoinedParticipant : String := "Not a joined participant"

def errAudioTooLarge : String := "Audio frame too large"

def errRoomNotFound : String := "Room not found"

def errNotVideoRoom : String := "Not a video room"

def errVideoTooLarge : String := "Video frame too large"

def errOnlyHostMute : String := "Only the host can mute all"

def errOnlyHostUnmute : String := "Only the host can unmute all"

def errOnlyHostKick : String := "Only the host can kick participants"

def errKickSelf : String := "Cannot kick yourself"

def errOnlyHostServerMute : String := "Only the host can change server mute"

def errServerMuteSelf : String := "Cannot server-mute yourself"

def errTargetNotFound : String := "Target not found"

/-! Store primitives. -/

/-- Insert a `CallParticipant` row, assigning the `#[auto_inc]` id. -/
def insertParticipant (s : DB) (row : CallParticipant) : DB :=
  { s with
    call_participants := s.call_participants ++ [{ row with id := s.next_participant_id }]
    next_participant_id := s.next_participant_id + 1 }

/-- `call_participant().id().update(row)`: replace the row whose primary key
equals `row.id`. -/
def updateParticipant (s : DB) (row : CallParticipant) : DB :=
  { s with
    call_participants := s.call_participants.map (fun p => if p.id == row.id then row else p) }

/-- `call_participant().id().delete(&d)`. -/
def deleteParticipantById (s : DB) (d : Nat) : DB :=
  { s with call_participants := s.call_participants.filter (fun p => !(p.id == d)) }

def findUser (s : DB) (who : Nat) : Option User :=
  s.users.find? (fun u => u.identity == who)

def findRoom (s : DB) (r : Nat) : Option CallRoom :=
  s.call_rooms.find? (fun x => x.room_id == r)

def defaultNick (who : Nat) : String :=
  "user-" ++ toString who

/-! The reducers. -/

/-- `init`: insert the default singleton settings row if missing.
(`0.02` and `0.85` are written as rationals.) -/
def init (s : DB) : Except String Unit × DB :=
  if (s.media_settings.find? (fun m => m.id == 1)).isSome then (Except.ok (), s)
  else
    (Except.ok (),
      { s with
        media_settings := s.media_settings ++
          [{ id := 1
             audio_target_sample_rate := 48000
             audio_frame_ms := 20
             audio_max_frame_bytes := 10000
             audio_talking_rms_threshold := (2 : Rat) / 100
             video_width := 1280
             video_height := 720
             video_fps := 15
             video_jpeg_quality := (85 : Rat) / 100
             video_max_frame_bytes := 200000
             video_iframe_interval := 15 }] })

/-- `reset_media_settings`: reset the encode parameters of the singleton row
(leaving `audio_talking_rms_threshold`, `video_width`, `video_height` as-is). -/
def reset_media_settings (s : DB) : Except String Unit × DB :=
  match s.media_settings.find? (fun m => m.id == 1) with
  | none => (Except.error errSingletonMissing, s)
  | some m0 =>
    let m1 := { m0 with
      audio_target_sample_rate := 48000
      audio_frame_ms := 20
      audio_max_frame_bytes := 10000
      video_fps := 15
      video_jpeg_quality := (85 : Rat) / 100
      video_max_frame_bytes := 200000
      video_iframe_interval := 15 }
    (Except.ok (),
      { s with media_settings := s.media_settings.map (fun m => if m.id == m1.id then m1 else m) })

/-- `client_connected`: upsert the `User` row. -/
def client_connected (who now : Nat) (s : DB) : Except String Unit × DB :=
  match findUser s who with
  | some existing =>
    let row := { existing with
      connected_at := now
      nickname := if existing.nickname.isEmpty then defaultNick who else existing.nickname }
    (Except.ok (), { s with users := s.users.map (fun u => if u.identity == who then row else u) })
  | none =>
    (Except.ok (),
      { s with users := s.users ++ [{ identity := who, nickname := defaultNick who, connected_at := now }] })

/-- `cleanup_room_if_empty`: if no row for `room_id` is `Joined`, delete every
remaining participant row for `room_id` and the `CallRoom` row. -/
def cleanup_room_if_empty (s : DB) (room_id : Nat) : DB :=
  if s.call_participants.any (fun p => p.room_id == room_id && p.state == ParticipantState.Joined)
  then s
  else
    { s with
      call_participants := s.call_participants.filter (fun p => !(p.room_id == room_id))
      call_rooms := s.call_rooms.filter (fun r => !(r.room_id == room_id)) }

/-- `client_disconnected`: delete the `User` row and every participant row for
`who`, then run cleanup for each room where `who` was `Joined`. -/
def client_disconnected (who : Nat) (s : DB) : Except String Unit × DB :=
  let participant_rows := s.call_participants.filter (fun p => p.identity == who)
  let joined_rooms :=
    (participant_rows.filter (fun p => p.state == ParticipantState.Joined)).map (fun p => p.room_id)
  let s1 := { s with
    users := s.users.filter (fun u => !(u.identity == who))
    call_participants := s.call_participants.filter (fun p => !(p.identity == who)) }
  (Except.ok (), joined_rooms.foldl (fun st r => cleanup_room_if_empty st r) s1)

/-- `set_nickname`. -/
def set_nickname (who : Nat) (nickname : String) (s : DB) : Except String Unit × DB :=
  let nickname := nickname.trim
  if nickname.isEmpty then (Except.error errNicknameEmpty, s)
  else if nickname.length > 32 then (Except.error errNicknameLong, s)
  else
    match findUser s who with
    | none => (Except.error errUserNotFound, s)
    | some user =>
      let updated := { user with nickname := nickname }
      (Except.ok (),
        { s with users := s.users.map (fun u => if u.identity == who then updated else u) })

/-- `send_message`. -/
def send_message (who now : Nat) (text : String) (s : DB) : Except String Unit × DB :=
  let t := text.trim
  if t.isEmpty then (Except.error errMessageEmpty, s)
  else if t.length > 500 then (Except.error errMessageLong, s)
  else
    (Except.ok (),
      { s with
        chat_messages := s.chat_messages ++
          [{ id := s.next_message_id, sender := who, sent_at := now, text := t }]
        next_message_id := s.next_message_id + 1 })

/-- The per-target validation loop of `create_room`, returning the first
error in source order (self-invite, offline, already in a call). -/
def checkTargets (creator : Nat) (s : DB) : List Nat → Option String
  | [] => none
  | t :: ts =>
    if t == creator then some errInviteSelf
    else if (findUser s t).isNone then some errTargetOffline
    else if s.call_participants.any (fun p => p.identity == t && p.state == ParticipantState.Joined)
    then some errTargetInCall
    else checkTargets creator s ts

/-- The target-insertion loop of `create_room`: one `Invited` row per target. -/
def insertInvites (room_id creator : Nat) (s : DB) : List Nat → DB
  | [] => s
  | t :: ts =>
    insertInvites room_id creator
      (insertParticipant s
        { id := 0, room_id := room_id, identity := t, state := ParticipantState.Invited
          invited_by := creator, joined_at := none
          muted := false, deafened := false, cam_off := false, server_muted := false }) ts

/-- `create_room`. -/
def create_room (creator now : Nat) (targets : List Nat) (call_type : CallType) (s : DB) :
    Except String Unit × DB :=
  if targets.isEmpty then (Except.error errNeedTarget, s)
  else if targets.length > 15 then (Except.error errTooManyTargets, s)
  else if s.call_participants.any
      (fun p => p.identity == creator && p.state == ParticipantState.Joined) then
    (Except.error errAlreadyInCall, s)
  else
    match checkTargets creator s targets with
    | some e => (Except.error e, s)
    | none =>
      let room_id := s.next_room_id
      let s1 := { s with
        next_room_id := s.next_room_id + 1
        call_rooms := s.call_rooms ++
          [{ room_id := room_id, call_type := call_type, created_at := now, creator := creator }] }
      let s2 := insertParticipant s1
        { id := 0, room_id := room_id, identity := creator, state := ParticipantState.Joined
          invited_by := creator, joined_at := some now
          muted := false, deafened := false, cam_off := false, server_muted := false }
      (Except.ok (), insertInvites room_id creator s2 targets)

/-- `invite_to_room`. -/
def invite_to_room (who room_id target : Nat) (s : DB) : Except String Unit × DB :=
  if !(s.call_participants.any
      (fun p => p.room_id == room_id && p.identity == who && p.state == ParticipantState.Joined))
  then (Except.error errNotJoinedHere, s)
  else if (findUser s target).isNone then (Except.error errInviteeOffline, s)
  else if s.call_participants.any
      (fun p => p.identity == target && p.state == ParticipantState.Joined) then
    (Except.error errInviteeInCall, s)
  else if s.call_participants.any (fun p => p.room_id == room_id && p.identity == target) then
    (Except.error errInviteeInRoom, s)
  else
    (Except.ok (),
      insertParticipant s
        { id := 0, room_id := room_id, identity := target, state := ParticipantState.Invited
          invited_by := who, joined_at := none
          muted := false, deafened := false, cam_off := false, server_muted := false })

/-- `join_room`. -/
def join_room (who now room_id : Nat) (s : DB) : Except String Unit × DB :=
  match s.call_participants.find? (fun p => p.room_id == room_id && p.identity == who) with
  | none => (Except.error errNotInvited, s)
  | some participant =>
    if participant.state ≠ ParticipantState.Invited then (Except.error errNotInvitedState, s)
    else if s.call_participants.any
        (fun p => p.identity == who && !(p.room_id == room_id) &&
          p.state == ParticipantState.Joined) then
      (Except.error errJoinedElsewhere, s)
    else
      (Except.ok (),
        updateParticipant s
          { participant with state := ParticipantState.Joined, joined_at := some now })

/-- `decline_invite`. -/
def decline_invite (who room_id : Nat) (s : DB) : Except String Unit × DB :=
  match s.call_participants.find? (fun p => p.room_id == room_id && p.identity == who) with
  | none => (Except.error errNotInRoom, s)
  | some participant =>
    if participant.state ≠ ParticipantState.Invited then (Except.error errNotInvitedState, s)
    else (Except.ok (), deleteParticipantById s participant.id)

/-- `leave_room`. -/
def leave_room (who room_id : Nat) (s : DB) : Except String Unit × DB :=
  match s.call_participants.find? (fun p => p.room_id == room_id && p.identity == who) with
  | none => (Except.error errNotInRoom, s)
  | some participant =>
    (Except.ok (), cleanup_room_if_empty (deleteParticipantById s participant.id) room_id)

/-- `send_audio_frame`. The size bound is the hardcoded `10_000` of the
source, not the settings row. -/
def send_audio_frame (who room_id seq sample_rate channels : Nat) (rms : Rat)
    (pcm16le : List Nat) (s : DB) : Except String Unit × DB :=
  match s.call_participants.find?
      (fun p => p.room_id == room_id && p.identity == who &&
        p.state == ParticipantState.Joined) with
  | none => (Except.error errNotJoinedParticipant, s)
  | some participant =>
    if participant.muted || participant.server_muted then (Except.ok (), s)
    else if pcm16le.length > 10000 then (Except.error errAudioTooLarge, s)
    else
      (Except.ok (),
        { s with
          audio_frame_events := s.audio_frame_events ++
            [{ room_id := room_id, from_ := who, seq := seq, sample_rate := sample_rate
               channels := channels, rms := rms, pcm16le := pcm16le }] })

/-- `send_video_frame`. The size bound is the hardcoded `200_000` of the
source, not the settings row. -/
def send_video_frame (who room_id seq width height : Nat) (is_iframe : Bool)
    (jpeg : List Nat) (s : DB) : Except String Unit × DB :=
  match findRoom s room_id with
  | none => (Except.error errRoomNotFound, s)
  | some room =>
    if room.call_type ≠ CallType.Video then (Except.error errNotVideoRoom, s)
    else
      match s.call_participants.find?
          (fun p => p.room_id == room_id && p.identity == who &&
            p.state == ParticipantState.Joined) with
      | none => (Except.error errNotJoinedParticipant, s)
      | some participant =>
        if participant.cam_off then (Except.ok (), s)
        else if jpeg.length > 200000 then (Except.error errVideoTooLarge, s)
        else
          (Except.ok (),
            { s with
              video_frame_events := s.video_frame_events ++
                [{ room_id := room_id, from_ := who, seq := seq, width := width
                   height := height, is_iframe := is_iframe, jpeg := jpeg }] })

/-- `set_media_state`: self-service toggles; `server_muted` forces `muted`. -/
def set_media_state (who room_id : Nat) (muted deafened cam_off : Bool) (s : DB) :
    Except String Unit × DB :=
  match s.call_participants.find?
      (fun p => p.room_id == room_id && p.identity == who &&
        p.state == ParticipantState.Joined) with
  | none => (Except.error errNotJoinedParticipant, s)
  | some participant =>
    let effective_muted := if participant.server_muted then true else muted
    (Except.ok (),
      updateParticipant s
        { participant with muted := effective_muted, deafened := deafened, cam_off := cam_off })

/-- `mute_all`: host-only; sets `server_muted` and `muted` on every `Joined`
row in the room except the caller's own. -/
def mute_all (who room_id : Nat) (s : DB) : Except String Unit × DB :=
  match findRoom s room_id with
  | none => (Except.error errRoomNotFound, s)
  | some room =>
    if room.creator ≠ who then (Except.error errOnlyHostMute, s)
    else
      (Except.ok (),
        { s with
          call_participants := s.call_participants.map (fun p =>
            if p.room_id == room_id && p.state == ParticipantState.Joined && !(p.identity == who)
            then { p with server_muted := true, muted := true }
            else p) })

/-- `unmute_all`: host-only; clears `server_muted` and `muted` on every
`Joined` row in the room except the caller's own. -/
def unmute_all (who room_id : Nat) (s : DB) : Except String Unit × DB :=
  match findRoom s room_id with
  | none => (Except.error errRoomNotFound, s)
  | some room =>
    if room.creator ≠ who then (Except.error errOnlyHostUnmute, s)
    else
      (Except.ok (),
        { s with
          call_participants := s.call_participants.map (fun p =>
            if p.room_id == room_id && p.state == ParticipantState.Joined && !(p.identity == who)
            then { p with server_muted := false, muted := false }
            else p) })

/-- `kick_participant`. -/
def kick_participant (who room_id target : Nat) (s : DB) : Except String Unit × DB :=
  match findRoom s room_id with
  | none => (Except.error errRoomNotFound, s)
  | some room =>
    if room.creator ≠ who then (Except.error errOnlyHostKick, s)
    else if target == who then (Except.error errKickSelf, s)
    else
      match s.call_participants.find? (fun p => p.room_id == room_id && p.identity == target) with
      | none => (Except.error errTargetNotFound, s)
      | some participant =>
        (Except.ok (), cleanup_room_if_empty (deleteParticipantById s participant.id) room_id)

/-- `set_participant_server_muted`: `locked = true` also forces `muted`;
`locked = false` leaves `muted` untouched. -/
def set_participant_server_muted (who room_id target : Nat) (locked : Bool) (s : DB) :
    Except String Unit × DB :=
  match findRoom s room_id with
  | none => (Except.error errRoomNotFound, s)
  | some room =>
    if room.creator ≠ who then (Except.error errOnlyHostServerMute, s)
    else if target == who then (Except.error errServerMuteSelf, s)
    else
      match s.call_participants.find?
          (fun p => p.room_id == room_id && p.identity == target &&
            p.state == ParticipantState.Joined) with
      | none => (Except.error errTargetNotFound, s)
      | some participant =>
        (Except.ok (),
          updateParticipant s
            { participant with
              server_muted := locked
              muted := if locked then true else participant.muted })

/-! Operation sequences. -/

/-- One invocation of any reducer, with its externally supplied arguments
(`ctx.sender()`, `ctx.timestamp`, and the reducer's own parameters). -/
inductive Op where
  | init
  | reset_media_settings
  | client_connected (who now : Nat)
  | client_disconnected (who : Nat)
  | set_nickname (who : Nat) (nickname : String)
  | send_message (who now : Nat) (text : String)
  | create_room (creator now : Nat) (targets : List Nat) (call_type : CallType)
  | invite_to_room (who room_id target : Nat)
  | join_room (who now room_id : Nat)
  | decline_invite (who room_id : Nat)
  | leave_room (who room_id : Nat)
  | send_audio_frame (who room_id seq sample_rate channels : Nat) (rms : Rat)
      (pcm16le : List Nat)
  | send_video_frame (who room_id seq width height : Nat) (is_iframe : Bool) (jpeg : List Nat)
  | set_media_state (who room_id : Nat) (muted deafened cam_off : Bool)
  | mute_all (who room_id : Nat)
  | unmute_all (who room_id : Nat)
  | kick_participant (who room_id target : Nat)
  | set_participant_server_muted (who room_id target : Nat) (locked : Bool)
deriving DecidableEq, Repr

/-- Dispatch one operation. -/
def step (s : DB) : Op → Except String Unit × DB
  | Op.init => init s
  | Op.reset_media_settings => reset_media_settings s
  | Op.client_connected who now => client_connected who now s
  | Op.client_disconnected who => client_disconnected who s
  | Op.set_nickname who nickname => set_nickname who nickname s
  | Op.send_message who now text => send_message who now text s
  | Op.create_room creator now targets ct => create_room creator now targets ct s
  | Op.invite_to_room who room_id target => invite_to_room who room_id target s
  | Op.join_room who now room_id => join_room who now room_id s
  | Op.decline_invite who room_id => decline_invite who room_id s
  | Op.leave_room who room_id => leave_room who room_id s
  | Op.send_audio_frame who room_id seq sr ch rms payload =>
      send_audio_frame who room_id seq sr ch rms payload s
  | Op.send_video_frame who room_id seq w h iframe payload =>
      send_video_frame who room_id seq w h iframe payload s
  | Op.set_media_state who room_id muted deafened cam_off =>
      set_media_state who room_id muted deafened cam_off s
  | Op.mute_all who room_id => mute_all who room_id s
  | Op.unmute_all who room_id => unmute_all who room_id s
  | Op.kick_participant who room_id target => kick_participant who room_id target s
  | Op.set_participant_server_muted who room_id target locked =>
      set_participant_server_muted who room_id target locked s

/-- Run a sequence of operations (each one commits its post-state; a failed
operation leaves the state unchanged, see `c8_failed_op_rolls_back`). -/
def exec (s : DB) (ops : List Op) : DB :=
  ops.foldl (fun st op => (step st op).2) s

/-! ## Generic list lemmas -/

theorem find?_eq_head?_filter {α : Type _} (p : α → Bool) :
    ∀ l : List α, l.find? p = (l.filter p).head? := by
  intro l
  induction l with
  | nil => rfl
  | cons a t ih =>
    by_cases h : p a = true
    · rw [List.find?_cons_of_pos _ h, List.filter_cons_of_pos h, List.head?_cons]
    · rw [List.find?_cons_of_neg _ (by simp [h]), List.filter_cons_of_neg (by simp [h]), ih]

theorem tail_mem_of_sublist {α : Type _} {l' l : List α} (h : l'.Sublist l) :
    ∀ q ∈ l'.tail, q ∈ l.tail := by
  cases l with
  | nil =>
    have : l' = [] := List.sublist_nil.mp h
    subst this
    simp
  | cons a t =>
    cases h with
    | cons _ h' =>
      intro q hq
      exact h'.subset (List.mem_of_mem_tail hq)
    | cons₂ _ h' =>
      intro q hq
      simp only [List.tail_cons] at hq ⊢
      exact h'.subset hq

theorem mem_tail_append_singleton {α : Type _} {l : List α} {r q : α}
    (h : q ∈ (l ++ [r]).tail) : q ∈ l.tail ∨ q = r := by
  cases l with
  | nil => simp at h
  | cons a t =>
    simp only [List.cons_append, List.tail_cons, List.mem_append, List.mem_singleton] at h
    exact h

theorem filter_map_congr {α : Type _} {f : α → α} {p : α → Bool} :
    ∀ {l : List α}, (∀ a ∈ l, p (f a) = p a) →
      (l.map f).filter p = (l.filter p).map f := by
  intro l
  induction l with
  | nil => simp
  | cons a t ih =>
    intro h
    have ha := h a (List.mem_cons_self a t)
    have ht := ih fun b hb => h b (List.mem_cons_of_mem a hb)
    by_cases hp : p a = true <;>
      simp [List.filter_cons, ha, hp, ht]

theorem countP_map_congr {α : Type _} {f : α → α} {p : α → Bool} :
    ∀ {l : List α}, (∀ a ∈ l, p (f a) = p a) →
      (l.map f).countP p = l.countP p := by
  intro l
  induction l with
  | nil => simp
  | cons a t ih =>
    intro h
    have ha := h a (List.mem_cons_self a t)
    have ht := ih fun b hb => h b (List.mem_cons_of_mem a hb)
    simp [List.countP_cons, ha, ht]

/-! ## The main store invariant

`PInv parts npid nrid` bundles the facts about the participant table that
hold after every committed operation:
* primary keys are pairwise distinct `auto_inc` values below the counter;
* every row's `room_id` was generated by the room-id counter;
* for each `(room_id, identity)` pair, every row after the first (in
  primary-key order) is `Invited` — a `Joined` row can only be the row
  `find?` sees first, which is what makes the duplicate-row corner of
  `join_room` safe;
* each identity has at most one `Joined` row store-wide (invariant 1 of
  the data model).
-/

def filterRI (parts : List CallParticipant) (R who : Nat) : List CallParticipant :=
  parts.filter (fun p => p.room_id == R && p.identity == who)

def countJ (parts : List CallParticipant) (who : Nat) : Nat :=
  parts.countP (fun p => p.identity == who && p.state == ParticipantState.Joined)

structure PInv (parts : List CallParticipant) (npid nrid : Nat) : Prop where
  ids_lt : ∀ p ∈ parts, p.id < npid
  ids_nodup : (parts.map CallParticipant.id).Nodup
  rooms_lt : ∀ p ∈ parts, p.room_id < nrid
  joined_first : ∀ R who, ∀ q ∈ (filterRI parts R who).tail, q.state = ParticipantState.Invited
  at_most_one : ∀ who, countJ parts who ≤ 1

def Inv (s : DB) : Prop :=
  PInv s.call_participants s.next_participant_id s.next_room_id

theorem pinv_empty (npid nrid : Nat) : PInv [] npid nrid := by
  constructor <;> simp [filterRI, countJ]

theorem inv_emptyDB : Inv emptyDB :=
  pinv_empty 1 0

/-- Any deletion (modelled as `filter`) preserves the invariant. -/
theorem pinv_filter {parts : List CallParticipant} {npid nrid : Nat}
    (keep : CallParticipant → Bool) (h : PInv parts npid nrid) :
    PInv (parts.filter keep) npid nrid := by
  refine ⟨?_, ?_, ?_, ?_, ?_⟩
  · intro p hp
    exact h.ids_lt p (List.mem_of_mem_filter hp)
  · exact ((parts.filter_sublist).map CallParticipant.id).nodup h.ids_nodup
  · intro p hp
    exact h.rooms_lt p (List.mem_of_mem_filter hp)
  · intro R who q hq
    have hsub : (filterRI (parts.filter keep) R who).Sublist (filterRI parts R who) :=
      List.Sublist.filter _ (parts.filter_sublist)
    exact h.joined_first R who q (tail_mem_of_sublist hsub q hq)
  · intro who
    exact le_trans (List.Sublist.countP_le _ (parts.filter_sublist)) (h.at_most_one who)

/-- Growing the room-id counter preserves the invariant. -/
theorem pinv_mono_nrid {parts : List CallParticipant} {npid nrid nrid' : Nat}
    (hle : nrid ≤ nrid') (h : PInv parts npid nrid) : PInv parts npid nrid' :=
  ⟨h.ids_lt, h.ids_nodup, fun p hp => lt_of_lt_of_le (h.rooms_lt p hp) hle,
   h.joined_first, h.at_most_one⟩

theorem filterRI_append (l1 l2 : List CallParticipant) (R who : Nat) :
    filterRI (l1 ++ l2) R who = filterRI l1 R who ++ filterRI l2 R who :=
  List.filter_append l1 l2

theorem countJ_append (l1 l2 : List CallParticipant) (who : Nat) :
    countJ (l1 ++ l2) who = countJ l1 who + countJ l2 who :=
  List.countP_append _ l1 l2

/-- Appending a fresh-id row with `state = Invited` preserves the invariant
(new-participant inserts of `invite_to_room` and the `create_room` target
loop). -/
theorem pinv_append_invited {parts : List CallParticipant} {npid nrid : Nat}
    {r : CallParticipant} (hid : r.id = npid) (hst : r.state = ParticipantState.Invited)
    (hr : r.room_id < nrid) (h : PInv parts npid nrid) :
    PInv (parts ++ [r]) (npid + 1) nrid := by
  refine ⟨?_, ?_, ?_, ?_, ?_⟩
  · intro p hp
    rcases List.mem_append.mp hp with hp | hp
    · exact lt_trans (h.ids_lt p hp) (Nat.lt_succ_self npid)
    · simp only [List.mem_singleton] at hp
      subst hp
      omega
  · rw [List.map_append]
    rw [List.nodup_append]
    refine ⟨h.ids_nodup, by simp, ?_⟩
    intro x hx
    simp only [List.map_cons, List.map_nil, List.mem_singleton]
    intro hxr
    rcases List.mem_map.mp hx with ⟨p, hp, hpid⟩
    have := h.ids_lt p hp
    omega
  · intro p hp
    rcases List.mem_append.mp hp with hp | hp
    · exact h.rooms_lt p hp
    · simp only [List.mem_singleton] at hp
      subst hp
      exact hr
  · intro R who q hq
    rw [filterRI_append] at hq
    by_cases hpred : (r.room_id == R && r.identity == who) = true
    · have : filterRI [r] R who = [r] := by
        simp [filterRI, List.filter, hpred]
      rw [this] at hq
      rcases mem_tail_append_singleton hq with hq | hq
      · exact h.joined_first R who q hq
      · subst hq
        exact hst
    · have : filterRI [r] R who = [] := by
        simp only [filterRI, List.filter, hpred]
      rw [this, List.append_nil] at hq
      exact h.joined_first R who q hq
  · intro who
    rw [countJ_append]
    have h0 : countJ [r] who = 0 := by
      simp [countJ, List.countP_cons, hst]
    have h1 := h.at_most_one who
    omega

/-- Appending a fresh-id `Joined` row into a fresh room, for an identity
with no `Joined` row, preserves the invariant (the creator row of
`create_room`). -/
theorem pinv_append_joined {parts : List CallParticipant} {npid nrid : Nat}
    {r : CallParticipant} (hid : r.id = npid) (hst : r.state = ParticipantState.Joined)
    (hr : r.room_id < nrid) (hfresh : ∀ p ∈ parts, p.room_id ≠ r.room_id)
    (hcnt : countJ parts r.identity = 0) (h : PInv parts npid nrid) :
    PInv (parts ++ [r]) (npid + 1) nrid := by
  refine ⟨?_, ?_, ?_, ?_, ?_⟩
  · intro p hp
    rcases List.mem_append.mp hp with hp | hp
    · exact lt_trans (h.ids_lt p hp) (Nat.lt_succ_self npid)
    · simp only [List.mem_singleton] at hp
      subst hp
      omega
  · rw [List.map_append, List.nodup_append]
    refine ⟨h.ids_nodup, by simp, ?_⟩
    intro x hx
    simp only [List.map_cons, List.map_nil, List.mem_singleton]
    intro hxr
    rcases List.mem_map.mp hx with ⟨p, hp, hpid⟩
    have := h.ids_lt p hp
    omega
  · intro p hp
    rcases List.mem_append.mp hp with hp | hp
    · exact h.rooms_lt p hp
    · simp only [List.mem_singleton] at hp
      subst hp
      exact hr
  · intro R who q hq
    rw [filterRI_append] at hq
    by_cases hpred : (r.room_id == R && r.identity == who) = true
    · have hRr : R = r.room_id := by
        simp only [Bool.and_eq_true, beq_iff_eq] at hpred
        exact hpred.1.symm
      have hnil : filterRI parts R who = [] := by
        simp only [filterRI]
        rw [List.filter_eq_nil_iff]
        intro p hp
        simp only [Bool.and_eq_true, beq_iff_eq, not_and]
        intro hpR _
        exact absurd (hpR.trans hRr) (hfresh p hp)
      have hone : filterRI [r] R who = [r] := by
        simp [filterRI, List.filter, hpred]
      rw [hnil, hone, List.nil_append] at hq
      simp at hq
    · have : filterRI [r] R who = [] := by
        simp only [filterRI, List.filter, hpred]
      rw [this, List.append_nil] at hq
      exact h.joined_first R who q hq
  · intro who
    rw [countJ_append]
    by_cases hw : r.identity = who
    · subst hw
      have h1 : countJ [r] r.identity = 1 := by
        simp [countJ, List.countP_cons, hst]
      omega
    · have h0 : countJ [r] who = 0 := by
        simp [countJ, List.countP_cons, hw]
      have h1 := h.at_most_one who
      omega

/-- A pointwise rewrite that keeps `id`, `room_id`, `identity` and `state`
of every row preserves the invariant (`mute_all`, `unmute_all`, and — via
the nodup decomposition — the flag updates). -/
theorem pinv_map_fields {parts : List CallParticipant} {npid nrid : Nat}
    (f : CallParticipant → CallParticipant)
    (hf : ∀ p ∈ parts, (f p).id = p.id ∧ (f p).room_id = p.room_id ∧
      (f p).identity = p.identity ∧ (f p).state = p.state)
    (h : PInv parts npid nrid) : PInv (parts.map f) npid nrid := by
  refine ⟨?_, ?_, ?_, ?_, ?_⟩
  · intro p hp
    rcases List.mem_map.mp hp with ⟨q, hq, rfl⟩
    rw [(hf q hq).1]
    exact h.ids_lt q hq
  · rw [List.map_map]
    have : parts.map (CallParticipant.id ∘ f) = parts.map CallParticipant.id :=
      List.map_congr_left fun p hp => (hf p hp).1
    rw [this]
    exact h.ids_nodup
  · intro p hp
    rcases List.mem_map.mp hp with ⟨q, hq, rfl⟩
    rw [(hf q hq).2.1]
    exact h.rooms_lt q hq
  · intro R who q hq
    have hcomm : (parts.map f).filter (fun p => p.room_id == R && p.identity == who) =
        (parts.filter (fun p => p.room_id == R && p.identity == who)).map f :=
      filter_map_congr fun p hp => by rw [(hf p hp).2.1, (hf p hp).2.2.1]
    rw [show filterRI (parts.map f) R who =
        (parts.map f).filter (fun p => p.room_id == R && p.identity == who) from rfl,
      hcomm, ← List.map_tail] at hq
    rcases List.mem_map.mp hq with ⟨q', hq', rfl⟩
    have hq'' : q' ∈ filterRI parts R who := List.mem_of_mem_tail hq'
    have hmem : q' ∈ parts := List.mem_of_mem_filter hq''
    rw [(hf q' hmem).2.2.2]
    exact h.joined_first R who q' hq'
  · intro who
    have : countJ (parts.map f) who = countJ parts who :=
      countP_map_congr fun p hp => by rw [(hf p hp).2.2.1, (hf p hp).2.2.2]
    rw [this]
    exact h.at_most_one who

/-- With pairwise-distinct ids, updating the row with key `p.id` rewrites
exactly the occurrence of `p` and nothing else. -/
theorem update_decomp {parts : List CallParticipant}
    (hnd : (parts.map CallParticipant.id).Nodup)
    {p : CallParticipant} (hp : p ∈ parts) (row : CallParticipant) (hrid : row.id = p.id) :
    ∃ l1 l2, parts = l1 ++ p :: l2 ∧
      parts.map (fun q => if q.id == row.id then row else q) = l1 ++ row :: l2 ∧
      (∀ q ∈ l1, q.id ≠ p.id) ∧ (∀ q ∈ l2, q.id ≠ p.id) := by
  rcases List.append_of_mem hp with ⟨l1, l2, rfl⟩
  have hnd' := hnd
  rw [List.map_append, List.map_cons] at hnd'
  rw [List.nodup_append] at hnd'
  rcases hnd' with ⟨h1, h2, hdisj⟩
  have hl1 : ∀ q ∈ l1, q.id ≠ p.id := by
    intro q hq hqid
    exact hdisj (List.mem_map_of_mem CallParticipant.id hq) (by simp [hqid])
  have hl2 : ∀ q ∈ l2, q.id ≠ p.id := by
    intro q hq hqid
    rw [List.nodup_cons] at h2
    exact h2.1 (by rw [← hqid]; exact List.mem_map_of_mem CallParticipant.id hq)
  refine ⟨l1, l2, rfl, ?_, hl1, hl2⟩
  rw [List.map_append, List.map_cons]
  have e1 : l1.map (fun q => if q.id == row.id then row else q) = l1 := by
    conv_rhs => rw [← List.map_id l1]
    exact List.map_congr_left fun q hq => by simp [hrid, hl1 q hq]
  have e2 : l2.map (fun q => if q.id == row.id then row else q) = l2 := by
    conv_rhs => rw [← List.map_id l2]
    exact List.map_congr_left fun q hq => by simp [hrid, hl2 q hq]
  rw [e1, e2]
  simp [hrid]

/-! ## Per-operation preservation of `Inv` -/

theorem inv_insert_invited (s : DB) (row : CallParticipant)
    (hst : row.state = ParticipantState.Invited) (hr : row.room_id < s.next_room_id)
    (h : Inv s) : Inv (insertParticipant s row) :=
  pinv_append_invited rfl hst hr h

theorem inv_insert_joined (s : DB) (row : CallParticipant)
    (hst : row.state = ParticipantState.Joined) (hr : row.room_id < s.next_room_id)
    (hfresh : ∀ p ∈ s.call_participants, p.room_id ≠ row.room_id)
    (hcnt : countJ s.call_participants row.identity = 0)
    (h : Inv s) : Inv (insertParticipant s row) :=
  pinv_append_joined rfl hst hr hfresh hcnt h

theorem inv_cleanup (s : DB) (room_id : Nat) (h : Inv s) :
    Inv (cleanup_room_if_empty s room_id) := by
  simp only [cleanup_room_if_empty]
  split
  · exact h
  · exact pinv_filter _ h

theorem inv_foldl_cleanup (rs : List Nat) :
    ∀ s : DB, Inv s → Inv (rs.foldl (fun st r => cleanup_room_if_empty st r) s) := by
  induction rs with
  | nil => intro s h; exact h
  | cons r rs ih =>
    intro s h
    rw [List.foldl_cons]
    exact ih _ (inv_cleanup s r h)

theorem inv_init (s : DB) (h : Inv s) : Inv (init s).2 := by
  simp only [init]
  split <;> exact h

theorem inv_reset_media_settings (s : DB) (h : Inv s) : Inv (reset_media_settings s).2 := by
  simp only [reset_media_settings]
  split <;> exact h

theorem inv_client_connected (who now : Nat) (s : DB) (h : Inv s) :
    Inv (client_connected who now s).2 := by
  simp only [client_connected]
  split <;> exact h

theorem inv_client_disconnected (who : Nat) (s : DB) (h : Inv s) :
    Inv (client_disconnected who s).2 :=
  inv_foldl_cleanup _ _ (pinv_filter _ h)

theorem inv_set_nickname (who : Nat) (nickname : String) (s : DB) (h : Inv s) :
    Inv (set_nickname who nickname s).2 := by
  simp only [set_nickname]
  split
  · exact h
  · split
    · exact h
    · split <;> exact h

theorem inv_send_message (who now : Nat) (text : String) (s : DB) (h : Inv s) :
    Inv (send_message who now text s).2 := by
  simp only [send_message]
  split
  · exact h
  · split <;> exact h

theorem inv_insertInvites (room_id creator : Nat) :
    ∀ (ts : List Nat) (s : DB), room_id < s.next_room_id → Inv s →
      Inv (insertInvites room_id creator s ts) := by
  intro ts
  induction ts with
  | nil => intro s _ h; exact h
  | cons t ts ih =>
    intro s hr h
    simp only [insertInvites]
    exact ih _ hr (inv_insert_invited s _ rfl hr h)

theorem inv_create_room (creator now : Nat) (targets : List Nat) (ct : CallType) (s : DB)
    (h : Inv s) : Inv (create_room creator now targets ct s).2 := by
  simp only [create_room]
  split
  · exact h
  · split
    · exact h
    · split
      · exact h
      · rename_i hnj
        split
        · exact h
        · rw [Bool.not_eq_true] at hnj
          have hcnt : countJ s.call_participants creator = 0 := by
            rw [countJ, List.countP_eq_zero]
            exact List.any_eq_false.mp hnj
          refine inv_insertInvites s.next_room_id creator targets _ ?_ ?_
          · exact Nat.lt_succ_self _
          · refine inv_insert_joined _ _ rfl ?_ ?_ ?_ ?_
            · exact Nat.lt_succ_self _
            · exact fun p hp => Nat.ne_of_lt (h.rooms_lt p hp)
            · exact hcnt
            · exact pinv_mono_nrid (Nat.le_succ _) h

theorem inv_invite_to_room (who room_id target : Nat) (s : DB) (h : Inv s) :
    Inv (invite_to_room who room_id target s).2 := by
  simp only [invite_to_room]
  split
  · exact h
  · rename_i hj
    split
    · exact h
    · split
      · exact h
      · split
        · exact h
        · have hj' : s.call_participants.any
              (fun p => p.room_id == room_id && p.identity == who &&
                p.state == ParticipantState.Joined) = true := by
            rcases Bool.eq_false_or_eq_true (s.call_participants.any
              (fun p => p.room_id == room_id && p.identity == who &&
                p.state == ParticipantState.Joined)) with hb | hb
            · exact hb
            · exact absurd (by rw [hb]; rfl) hj
          rcases List.any_eq_true.mp hj' with ⟨p, hp, hpred⟩
          simp only [Bool.and_eq_true, beq_iff_eq] at hpred
          have hr : room_id < s.next_room_id := hpred.1.1 ▸ h.rooms_lt p hp
          exact inv_insert_invited s _ rfl hr h

theorem inv_decline_invite (who room_id : Nat) (s : DB) (h : Inv s) :
    Inv (decline_invite who room_id s).2 := by
  simp only [decline_invite]
  split
  · exact h
  · split
    · exact h
    · exact pinv_filter _ h

theorem inv_leave_room (who room_id : Nat) (s : DB) (h : Inv s) :
    Inv (leave_room who room_id s).2 := by
  simp only [leave_room]
  split
  · exact h
  · exact inv_cleanup _ _ (pinv_filter _ h)

theorem inv_kick_participant (who room_id target : Nat) (s : DB) (h : Inv s) :
    Inv (kick_participant who room_id target s).2 := by
  simp only [kick_participant]
  split
  · exact h
  · split
    · exact h
    · split
      · exact h
      · split
        · exact h
        · exact inv_cleanup _ _ (pinv_filter _ h)

theorem inv_send_audio_frame (who room_id seq sr ch : Nat) (rms : Rat) (payload : List Nat)
    (s : DB) (h : Inv s) : Inv (send_audio_frame who room_id seq sr ch rms payload s).2 := by
  simp only [send_audio_frame]
  split
  · exact h
  · split
    · exact h
    · split <;> exact h

theorem inv_send_video_frame (who room_id seq w ht : Nat) (iframe : Bool) (payload : List Nat)
    (s : DB) (h : Inv s) : Inv (send_video_frame who room_id seq w ht iframe payload s).2 := by
  simp only [send_video_frame]
  split
  · exact h
  · split
    · exact h
    · split
      · exact h
      · split
        · exact h
        · split <;> exact h

theorem inv_mute_all (who room_id : Nat) (s : DB) (h : Inv s) :
    Inv (mute_all who room_id s).2 := by
  simp only [mute_all]
  split
  · exact h
  · split
    · exact h
    · refine pinv_map_fields _ (fun p _ => ?_) h
      split <;> exact ⟨rfl, rfl, rfl, rfl⟩

theorem inv_unmute_all (who room_id : Nat) (s : DB) (h : Inv s) :
    Inv (unmute_all who room_id s).2 := by
  simp only [unmute_all]
  split
  · exact h
  · split
    · exact h
    · refine pinv_map_fields _ (fun p _ => ?_) h
      split <;> exact ⟨rfl, rfl, rfl, rfl⟩

/-- Updating a member row while keeping its `id`, `room_id`, `identity` and
`state` preserves the invariant (`set_media_state`,
`set_participant_server_muted`). -/
theorem inv_update_flags (s : DB) {participant : CallParticipant}
    (hp : participant ∈ s.call_participants) (row : CallParticipant)
    (hid : row.id = participant.id) (hroom : row.room_id = participant.room_id)
    (hident : row.identity = participant.identity) (hstate : row.state = participant.state)
    (h : Inv s) : Inv (updateParticipant s row) := by
  refine pinv_map_fields _ (fun p hpmem => ?_) h
  by_cases hb : (p.id == row.id) = true
  · have hpid : p.id = participant.id := by
      rw [beq_iff_eq] at hb
      rw [hb, hid]
    have hpp : p = participant := List.inj_on_of_nodup_map h.ids_nodup hpmem hp hpid
    simp only [hb, if_true]
    subst hpp
    exact ⟨hid, hroom, hident, hstate⟩
  · simp only [hb]
    exact ⟨rfl, rfl, rfl, rfl⟩

theorem inv_set_media_state (who room_id : Nat) (muted deafened cam_off : Bool) (s : DB)
    (h : Inv s) : Inv (set_media_state who room_id muted deafened cam_off s).2 := by
  simp only [set_media_state]
  cases hfind : s.call_participants.find?
      (fun p => p.room_id == room_id && p.identity == who &&
        p.state == ParticipantState.Joined) with
  | none => exact h
  | some participant =>
    exact inv_update_flags s (List.mem_of_find?_eq_some hfind) _ rfl rfl rfl rfl h

theorem inv_set_participant_server_muted (who room_id target : Nat) (locked : Bool) (s : DB)
    (h : Inv s) : Inv (set_participant_server_muted who room_id target locked s).2 := by
  simp only [set_participant_server_muted]
  split
  · exact h
  · split
    · exact h
    · split
      · exact h
      · cases hfind : s.call_participants.find?
            (fun p => p.room_id == room_id && p.identity == target &&
              p.state == ParticipantState.Joined) with
        | none => exact h
        | some participant =>
          exact inv_update_flags s (List.mem_of_find?_eq_some hfind) _ rfl rfl rfl rfl h

/-- Under the `join_room` guards, the joining identity has no `Joined` row
anywhere: other rooms are excluded by the explicit check, and a `Joined` row
in the same room would have to be the row `find?` returned — which is
`Invited`. -/
theorem countJ_zero_of_join_guards {parts : List CallParticipant} {npid nrid R who : Nat}
    (h : PInv parts npid nrid) {participant : CallParticipant}
    (hfind : parts.find? (fun p => p.room_id == R && p.identity == who) = some participant)
    (hst : participant.state = ParticipantState.Invited)
    (hany : parts.any (fun p => p.identity == who && !(p.room_id == R) &&
      p.state == ParticipantState.Joined) = false) :
    countJ parts who = 0 := by
  rw [countJ, List.countP_eq_zero]
  intro q hq hpred
  simp only [Bool.and_eq_true, beq_iff_eq] at hpred
  obtain ⟨hqi, hqs⟩ := hpred
  by_cases hqr : q.room_id = R
  · have hqmem : q ∈ filterRI parts R who := by
      rw [filterRI, List.mem_filter]
      exact ⟨hq, by simp [hqr, hqi]⟩
    have hhead : (filterRI parts R who).head? = some participant := by
      rw [filterRI, ← find?_eq_head?_filter]
      exact hfind
    cases hlri : filterRI parts R who with
    | nil =>
      rw [hlri] at hqmem
      simp at hqmem
    | cons a tl =>
      rw [hlri] at hhead hqmem
      simp only [List.head?_cons, Option.some_inj] at hhead
      subst hhead
      rcases List.mem_cons.mp hqmem with hqa | hqtl
      · rw [hqa, hst] at hqs
        exact absurd hqs (by simp)
      · have hinv := h.joined_first R who q (by rw [hlri]; exact hqtl)
        rw [hinv] at hqs
        exact absurd hqs (by simp)
  · have hnone := List.any_eq_false.mp hany q hq
    apply hnone
    simp [hqi, hqs, hqr]

/-- The `join_room` update — flipping the found `Invited` row to `Joined` —
preserves the invariant. `row` is the updated row, given by its field
equations. -/
theorem pinv_update_join {parts : List CallParticipant} {npid nrid R who : Nat}
    (h : PInv parts npid nrid) {participant : CallParticipant}
    (hfind : parts.find? (fun p => p.room_id == R && p.identity == who) = some participant)
    (hst : participant.state = ParticipantState.Invited)
    (hany : parts.any (fun p => p.identity == who && !(p.room_id == R) &&
      p.state == ParticipantState.Joined) = false)
    (row : CallParticipant)
    (hrid : row.id = participant.id) (hrroom : row.room_id = participant.room_id)
    (hrident : row.identity = participant.identity)
    (hrstate : row.state = ParticipantState.Joined) :
    PInv (parts.map (fun q => if q.id == row.id then row else q)) npid nrid := by
  have hpmem : participant ∈ parts := List.mem_of_find?_eq_some hfind
  have hpidw : participant.identity = who := by
    have := List.find?_some hfind
    simp only [Bool.and_eq_true, beq_iff_eq] at this
    exact this.2
  have hcnt0 := countJ_zero_of_join_guards h hfind hst hany
  obtain ⟨l1, l2, hparts, hmap, hl1, hl2⟩ := update_decomp h.ids_nodup hpmem row hrid
  rw [hmap]
  have hm1 : ∀ q ∈ l1, q ∈ parts := fun q hq => by
    rw [hparts]; exact List.mem_append_left _ hq
  have hm2 : ∀ q ∈ l2, q ∈ parts := fun q hq => by
    rw [hparts]; exact List.mem_append_right _ (List.mem_cons_of_mem _ hq)
  refine ⟨?_, ?_, ?_, ?_, ?_⟩
  · intro p hp
    rcases List.mem_append.mp hp with hp | hp
    · exact h.ids_lt p (hm1 p hp)
    · rcases List.mem_cons.mp hp with hp | hp
      · rw [hp, hrid]
        exact h.ids_lt participant hpmem
      · exact h.ids_lt p (hm2 p hp)
  · have : (l1 ++ row :: l2).map CallParticipant.id =
        (l1 ++ participant :: l2).map CallParticipant.id := by
      simp [List.map_append, hrid]
    rw [this, ← hparts]
    exact h.ids_nodup
  · intro p hp
    rcases List.mem_append.mp hp with hp | hp
    · exact h.rooms_lt p (hm1 p hp)
    · rcases List.mem_cons.mp hp with hp | hp
      · rw [hp, hrroom]
        exact h.rooms_lt participant hpmem
      · exact h.rooms_lt p (hm2 p hp)
  · intro R' who' q hq
    have hppr : (row.room_id == R' && row.identity == who') =
        (participant.room_id == R' && participant.identity == who') := by
      rw [hrroom, hrident]
    by_cases hpp : (participant.room_id == R' && participant.identity == who') = true
    · -- the updated slice: `R' = R`, `who' = who`; nothing matching the
      -- slice predicate sits in `l1` because `find?` saw `participant`
      -- first, so the update rewrites the head of the slice and the tail
      -- is the old all-`Invited` tail.
      have hRR : R' = R := by
        have hps := List.find?_some hfind
        simp only [Bool.and_eq_true, beq_iff_eq] at hps hpp
        rw [← hpp.1, hps.1]
      have hww : who' = who := by
        simp only [Bool.and_eq_true, beq_iff_eq] at hpp
        rw [← hpp.2, hpidw]
      subst hRR
      subst hww
      have hhead : (filterRI parts R' who').head? = some participant := by
        rw [filterRI, ← find?_eq_head?_filter]
        exact hfind
      have hlri : filterRI parts R' who' =
          List.filter (fun p => p.room_id == R' && p.identity == who') l1 ++
            participant ::
              List.filter (fun p => p.room_id == R' && p.identity == who') l2 := by
        rw [filterRI, hparts, List.filter_append,
          @List.filter_cons_of_pos _ (fun p => p.room_id == R' && p.identity == who')
            participant l2 hpp]
      have hfl1 : List.filter (fun p => p.room_id == R' && p.identity == who') l1 = [] := by
        cases hc : List.filter (fun p => p.room_id == R' && p.identity == who') l1 with
        | nil => rfl
        | cons a rest =>
          rw [hlri, hc] at hhead
          simp only [List.cons_append, List.head?_cons, Option.some_inj] at hhead
          have ha : a ∈ l1 :=
            List.mem_of_mem_filter (hc ▸ List.mem_cons_self a rest)
          exact absurd (by rw [hhead]) (hl1 a ha)
      have hnew : filterRI (l1 ++ row :: l2) R' who' =
          row :: List.filter (fun p => p.room_id == R' && p.identity == who') l2 := by
        rw [filterRI, List.filter_append, hfl1, List.nil_append,
          @List.filter_cons_of_pos _ (fun p => p.room_id == R' && p.identity == who')
            row l2 (hppr.trans hpp)]
      rw [hnew, List.tail_cons] at hq
      refine h.joined_first R' who' q ?_
      rw [hlri, hfl1, List.nil_append, List.tail_cons]
      exact hq
    · -- untouched slice: the filtered list is unchanged.
      have hpprf : ¬((fun p => p.room_id == R' && p.identity == who') row = true) := by
        intro hx
        exact hpp (hppr.symm.trans hx)
      have heq : filterRI (l1 ++ row :: l2) R' who' = filterRI parts R' who' := by
        rw [filterRI, filterRI, hparts, List.filter_append, List.filter_append,
          @List.filter_cons_of_neg _ (fun p => p.room_id == R' && p.identity == who')
            row l2 hpprf,
          @List.filter_cons_of_neg _ (fun p => p.room_id == R' && p.identity == who')
            participant l2 hpp]
      rw [heq] at hq
      exact h.joined_first R' who' q hq
  · intro who'
    have hx := h.at_most_one who'
    rw [hparts] at hx
    rw [countJ_append] at hx ⊢
    by_cases hw : who' = who
    · subst hw
      rw [hparts, countJ_append] at hcnt0
      have h2 : countJ (participant :: l2) who' = countJ l2 who' +
          if (participant.identity == who' && participant.state == ParticipantState.Joined)
            = true then 1 else 0 := by
        rw [countJ, countJ, List.countP_cons]
      have h3 : countJ (row :: l2) who' = countJ l2 who' + 1 := by
        rw [countJ, countJ, List.countP_cons]
        simp [hrident, hrstate, hpidw]
      rw [h3]
      rw [h2] at hcnt0
      omega
    · have hne : row.identity ≠ who' := by
        rw [hrident, hpidw]
        exact fun hh => hw hh.symm
      have hne' : participant.identity ≠ who' := by
        rw [hpidw]
        exact fun hh => hw hh.symm
      have h2 : countJ (participant :: l2) who' = countJ l2 who' := by
        rw [countJ, countJ, List.countP_cons]
        simp [hne']
      have h3 : countJ (row :: l2) who' = countJ l2 who' := by
        rw [countJ, countJ, List.countP_cons]
        simp [hne]
      rw [h3]
      rw [h2] at hx
      omega

theorem inv_join_room (who now room_id : Nat) (s : DB) (h : Inv s) :
    Inv (join_room who now room_id s).2 := by
  simp only [join_room]
  split
  · exact h
  · rename_i participant hfind
    split
    · exact h
    · rename_i hstne
      have hst : participant.state = ParticipantState.Invited := not_not.mp hstne
      split
      · exact h
      · rename_i hany
        rw [Bool.not_eq_true] at hany
        exact pinv_update_join h hfind hst hany _ rfl rfl rfl rfl

/-- Every operation preserves the store invariant. -/
theorem inv_step (s : DB) (op : Op) (h : Inv s) : Inv (step s op).2 := by
  cases op with
  | init => exact inv_init s h
  | reset_media_settings => exact inv_reset_media_settings s h
  | client_connected who now => exact inv_client_connected who now s h
  | client_disconnected who => exact inv_client_disconnected who s h
  | set_nickname who nickname => exact inv_set_nickname who nickname s h
  | send_message who now text => exact inv_send_message who now text s h
  | create_room creator now targets ct => exact inv_create_room creator now targets ct s h
  | invite_to_room who room_id target => exact inv_invite_to_room who room_id target s h
  | join_room who now room_id => exact inv_join_room who now room_id s h
  | decline_invite who room_id => exact inv_decline_invite who room_id s h
  | leave_room who room_id => exact inv_leave_room who room_id s h
  | send_audio_frame who room_id seq sr ch rms payload =>
      exact inv_send_audio_frame who room_id seq sr ch rms payload s h
  | send_video_frame who room_id seq w ht iframe payload =>
      exact inv_send_video_frame who room_id seq w ht iframe payload s h
  | set_media_state who room_id muted deafened cam_off =>
      exact inv_set_media_state who room_id muted deafened cam_off s h
  | mute_all who room_id => exact inv_mute_all who room_id s h
  | unmute_all who room_id => exact inv_unmute_all who room_id s h
  | kick_participant who room_id target => exact inv_kick_participant who room_id target s h
  | set_participant_server_muted who room_id target locked =>
      exact inv_set_participant_server_muted who room_id target locked s h

theorem inv_exec (ops : List Op) : ∀ s : DB, Inv s → Inv (exec s ops) := by
  induction ops with
  | nil => intro s h; exact h
  | cons op ops ih =>
    intro s h
    rw [exec, List.foldl_cons]
    exact ih _ (inv_step s op h)

/-! ## Per-(room, identity) uniqueness

The row-level invariant `RIU`: no two participant rows share the same
`(room_id, identity)` pair. `create_room` does not deduplicate its
`targets` vector, so this only holds for operation sequences whose
`create_room` calls carry duplicate-free targets (`wfOps`). -/

def RIU (parts : List CallParticipant) : Prop :=
  parts.Pairwise (fun p q => ¬(q.room_id = p.room_id ∧ q.identity = p.identity))

/-- Executable check: no two rows share `(room_id, identity)`. -/
def roomIdentUniqueb : List CallParticipant → Bool
  | [] => true
  | p :: rest =>
    !(rest.any (fun q => q.room_id == p.room_id && q.identity == p.identity)) &&
      roomIdentUniqueb rest

theorem riu_iff_b (parts : List CallParticipant) :
    RIU parts ↔ roomIdentUniqueb parts = true := by
  induction parts with
  | nil => simp [RIU, roomIdentUniqueb]
  | cons p rest ih =>
    rw [RIU, List.pairwise_cons, roomIdentUniqueb, Bool.and_eq_true, Bool.not_eq_true',
      List.any_eq_false]
    rw [RIU] at ih
    constructor
    · intro ⟨h1, h2⟩
      refine ⟨fun q hq => ?_, ih.mp h2⟩
      simp only [Bool.and_eq_true, beq_iff_eq, not_and]
      intro hr hi
      exact h1 q hq ⟨hr, hi⟩
    · intro ⟨h1, h2⟩
      refine ⟨fun q hq hc => ?_, ih.mpr h2⟩
      have := h1 q hq
      simp only [Bool.and_eq_true, beq_iff_eq, not_and] at this
      exact this hc.1 hc.2

/-- Duplicate-freeness check for a targets vector. -/
def nodupb : List Nat → Bool
  | [] => true
  | t :: ts => !(ts.any (fun x => x == t)) && nodupb ts

/-- A well-formed operation: `create_room` with duplicate-free targets;
every other operation unconditionally. -/
def wfOp : Op → Bool
  | Op.create_room _ _ targets _ => nodupb targets
  | _ => true

def wfOps (ops : List Op) : Bool :=
  ops.all wfOp

theorem riu_filter {parts : List CallParticipant} (keep : CallParticipant → Bool)
    (h : RIU parts) : RIU (parts.filter keep) :=
  List.Pairwise.sublist (parts.filter_sublist) h

theorem riu_append_new {parts : List CallParticipant} {r : CallParticipant}
    (hnew : ∀ p ∈ parts, ¬(r.room_id = p.room_id ∧ r.identity = p.identity))
    (h : RIU parts) : RIU (parts ++ [r]) := by
  rw [RIU, List.pairwise_append]
  refine ⟨h, by simp, ?_⟩
  intro a ha b hb
  simp only [List.mem_singleton] at hb
  subst hb
  exact hnew a ha

theorem riu_map {parts : List CallParticipant} {f : CallParticipant → CallParticipant}
    (hf : ∀ p ∈ parts, (f p).room_id = p.room_id ∧ (f p).identity = p.identity)
    (h : RIU parts) : RIU (parts.map f) := by
  induction parts with
  | nil => simp [RIU]
  | cons a t ih =>
    rw [RIU, List.map_cons, List.pairwise_cons]
    rw [RIU, List.pairwise_cons] at h
    constructor
    · intro b' hb'
      rcases List.mem_map.mp hb' with ⟨b, hb, rfl⟩
      have hfa := hf a (List.mem_cons_self a t)
      have hfb := hf b (List.mem_cons_of_mem a hb)
      rw [hfa.1, hfa.2, hfb.1, hfb.2]
      exact h.1 b hb
    · exact ih (fun p hp => hf p (List.mem_cons_of_mem a hp)) h.2

theorem riu_cleanup (s : DB) (room_id : Nat) (h : RIU s.call_participants) :
    RIU (cleanup_room_if_empty s room_id).call_participants := by
  simp only [cleanup_room_if_empty]
  split
  · exact h
  · exact riu_filter _ h

theorem riu_foldl_cleanup (rs : List Nat) :
    ∀ s : DB, RIU s.call_participants →
      RIU ((rs.foldl (fun st r => cleanup_room_if_empty st r) s)).call_participants := by
  induction rs with
  | nil => intro s h; exact h
  | cons r rs ih =>
    intro s h
    rw [List.foldl_cons]
    exact ih _ (riu_cleanup s r h)

/-- Updating a member row while keeping its `room_id` and `identity`
preserves per-(room, identity) uniqueness. -/
theorem riu_update (s : DB) {participant : CallParticipant}
    (hp : participant ∈ s.call_participants) (row : CallParticipant)
    (hid : row.id = participant.id) (hroom : row.room_id = participant.room_id)
    (hident : row.identity = participant.identity)
    (hin : Inv s) (h : RIU s.call_participants) :
    RIU (updateParticipant s row).call_participants := by
  refine riu_map (fun p hpmem => ?_) h
  by_cases hb : (p.id == row.id) = true
  · have hpid : p.id = participant.id := by
      rw [beq_iff_eq] at hb
      rw [hb, hid]
    have hpp : p = participant := List.inj_on_of_nodup_map hin.ids_nodup hpmem hp hpid
    simp only [hb, if_true]
    subst hpp
    exact ⟨hroom, hident⟩
  · simp only [hb]
    exact ⟨rfl, rfl⟩

/-- The per-target validation loop succeeds exactly when every target is
distinct from the creator, online, and not `Joined` anywhere. -/
theorem checkTargets_eq_none_iff {creator : Nat} {s : DB} :
    ∀ {ts : List Nat}, (checkTargets creator s ts = none ↔
      ∀ t ∈ ts, t ≠ creator ∧ (findUser s t).isSome = true ∧
        s.call_participants.any (fun p => p.identity == t &&
          p.state == ParticipantState.Joined) = false) := by
  intro ts
  induction ts with
  | nil => simp [checkTargets]
  | cons t ts ih =>
    rw [checkTargets]
    split
    · rename_i h1
      rw [beq_iff_eq] at h1
      subst h1
      simp
    · rename_i h1
      split
      · rename_i h2
        rw [Option.isNone_iff_eq_none] at h2
        simp [h2]
      · rename_i h2
        split
        · rename_i h3
          constructor
          · intro hcontra
            exact absurd hcontra (by simp)
          · intro hall
            have hx := (hall t (List.mem_cons_self t ts)).2.2
            rw [h3] at hx
            exact absurd hx (by simp)
        · rename_i h3
          rw [ih]
          constructor
          · intro hrest t' ht'
            rcases List.mem_cons.mp ht' with rfl | ht'
            · refine ⟨fun hc => h1 (by rw [hc]; simp), ?_, ?_⟩
              · cases hf : findUser s t' with
                | none => exact absurd (by rw [Option.isNone_iff_eq_none]; exact hf) h2
                | some u => rfl
              · rw [Bool.not_eq_true] at h3
                exact h3
            · exact hrest t' ht'
          · intro hall t' ht'
            exact hall t' (List.mem_cons_of_mem _ ht')

theorem riu_insertInvites (room_id creator : Nat) :
    ∀ (ts : List Nat) (s : DB), nodupb ts = true →
      (∀ t ∈ ts, ∀ p ∈ s.call_participants, ¬(room_id = p.room_id ∧ t = p.identity)) →
      RIU s.call_participants →
      RIU (insertInvites room_id creator s ts).call_participants := by
  intro ts
  induction ts with
  | nil => intro s _ _ h; exact h
  | cons t ts ih =>
    intro s hnd hfresh h
    rw [nodupb, Bool.and_eq_true, Bool.not_eq_true'] at hnd
    simp only [insertInvites]
    apply ih
    · exact hnd.2
    · intro t' ht' p hp
      rcases List.mem_append.mp hp with hp | hp
      · exact hfresh t' (List.mem_cons_of_mem _ ht') p hp
      · simp only [List.mem_singleton] at hp
        subst hp
        intro hc
        have htne : t' ≠ t := by
          have := List.any_eq_false.mp hnd.1 t' ht'
          simpa using this
        exact htne hc.2
    · exact riu_append_new (fun p hp => hfresh t (List.mem_cons_self t ts) p hp) h

/-- Every well-formed operation preserves per-(room, identity) uniqueness. -/
theorem riu_step (s : DB) (op : Op) (hin : Inv s) (h : RIU s.call_participants)
    (hwf : wfOp op = true) : RIU (step s op).2.call_participants := by
  cases op with
  | init =>
    simp only [step, init]
    split <;> exact h
  | reset_media_settings =>
    simp only [step, reset_media_settings]
    split <;> exact h
  | client_connected who now =>
    simp only [step, client_connected]
    split <;> exact h
  | client_disconnected who =>
    exact riu_foldl_cleanup _ _ (riu_filter _ h)
  | set_nickname who nickname =>
    simp only [step, set_nickname]
    split
    · exact h
    · split
      · exact h
      · split <;> exact h
  | send_message who now text =>
    simp only [step, send_message]
    split
    · exact h
    · split <;> exact h
  | create_room creator now targets ct =>
    simp only [step, create_room]
    split
    · exact h
    · split
      · exact h
      · split
        · exact h
        · split
          · exact h
          · rename_i hct
            have htnc : ∀ t ∈ targets, t ≠ creator :=
              fun t ht => (checkTargets_eq_none_iff.mp hct t ht).1
            refine riu_insertInvites s.next_room_id creator targets _ hwf ?_ ?_
            · intro t ht p hp
              rcases List.mem_append.mp hp with hp | hp
              · intro hc
                exact absurd hc.1.symm (Nat.ne_of_lt (hin.rooms_lt p hp))
              · simp only [List.mem_singleton] at hp
                subst hp
                intro hc
                exact htnc t ht hc.2
            · refine riu_append_new (fun p hp => ?_) h
              intro hc
              exact absurd hc.1.symm (Nat.ne_of_lt (hin.rooms_lt p hp))
  | invite_to_room who room_id target =>
    simp only [step, invite_to_room]
    split
    · exact h
    · split
      · exact h
      · split
        · exact h
        · split
          · exact h
          · rename_i hroom
            rw [Bool.not_eq_true] at hroom
            refine riu_append_new (fun p hp => ?_) h
            intro hc
            have := List.any_eq_false.mp hroom p hp
            apply this
            simp [hc.1.symm, hc.2.symm]
  | join_room who now room_id =>
    simp only [step, join_room]
    split
    · exact h
    · rename_i participant hfind
      split
      · exact h
      · split
        · exact h
        · exact riu_update s (List.mem_of_find?_eq_some hfind) _ rfl rfl rfl hin h
  | decline_invite who room_id =>
    simp only [step, decline_invite]
    split
    · exact h
    · split
      · exact h
      · exact riu_filter _ h
  | leave_room who room_id =>
    simp only [step, leave_room]
    split
    · exact h
    · exact riu_cleanup _ _ (riu_filter _ h)
  | send_audio_frame who room_id seq sr ch rms payload =>
    simp only [step, send_audio_frame]
    split
    · exact h
    · split
      · exact h
      · split <;> exact h
  | send_video_frame who room_id seq w ht iframe payload =>
    simp only [step, send_video_frame]
    split
    · exact h
    · split
      · exact h
      · split
        · exact h
        · split
          · exact h
          · split <;> exact h
  | set_media_state who room_id muted deafened cam_off =>
    simp only [step, set_media_state]
    cases hfind : s.call_participants.find?
        (fun p => p.room_id == room_id && p.identity == who &&
          p.state == ParticipantState.Joined) with
    | none => exact h
    | some participant =>
      exact riu_update s (List.mem_of_find?_eq_some hfind) _ rfl rfl rfl hin h
  | mute_all who room_id =>
    simp only [step, mute_all]
    split
    · exact h
    · split
      · exact h
      · refine riu_map (fun p _ => ?_) h
        split <;> exact ⟨rfl, rfl⟩
  | unmute_all who room_id =>
    simp only [step, unmute_all]
    split
    · exact h
    · split
      · exact h
      · refine riu_map (fun p _ => ?_) h
        split <;> exact ⟨rfl, rfl⟩
  | kick_participant who room_id target =>
    simp only [step, kick_participant]
    split
    · exact h
    · split
      · exact h
      · split
        · exact h
        · split
          · exact h
          · exact riu_cleanup _ _ (riu_filter _ h)
  | set_participant_server_muted who room_id target locked =>
    simp only [step, set_participant_server_muted]
    split
    · exact h
    · split
      · exact h
      · split
        · exact h
        · cases hfind : s.call_participants.find?
              (fun p => p.room_id == room_id && p.identity == target &&
                p.state == ParticipantState.Joined) with
          | none => exact h
          | some participant =>
            exact riu_update s (List.mem_of_find?_eq_some hfind) _ rfl rfl rfl hin h

theorem riu_exec (ops : List Op) : ∀ s : DB, Inv s → RIU s.call_participants →
    wfOps ops = true → RIU (exec s ops).call_participants := by
  induction ops with
  | nil => intro s _ h _; exact h
  | cons op ops ih =>
    intro s hin h hwf
    rw [wfOps, List.all_cons, Bool.and_eq_true] at hwf
    rw [exec, List.foldl_cons]
    exact ih _ (inv_step s op hin) (riu_step s op hin h hwf.1) hwf.2

/-! ## Claim theorems -/

/-- C1: for every sequence of committed operations starting from the empty
store, at every post-commit observation no identity has more than one
`CallParticipant` row with `state = Joined` across the whole store
(`create_room`, `invite_to_room`, `join_room` and all other operations
preserve this). -/
theorem c1_at_most_one_joined (ops : List Op) (ident : Nat) :
    countJ (exec emptyDB ops).call_participants ident ≤ 1 :=
  (inv_exec ops emptyDB inv_emptyDB).at_most_one ident

/-- C2 (amended): after every committed operation there is at most one
`CallParticipant` row per `(room_id, identity)` pair, provided every
`create_room` call in the sequence carries a duplicate-free targets vector;
`create_room` itself never deduplicates its targets. -/
theorem c2_room_ident_unique_of_wf (ops : List Op) (h : wfOps ops = true) :
    roomIdentUniqueb (exec emptyDB ops).call_participants = true :=
  (riu_iff_b _).mp (riu_exec ops emptyDB inv_emptyDB List.Pairwise.nil h)

theorem c2_room_ident_unique_of_wf_witness :
    wfOps [Op.client_connected 1 0, Op.client_connected 2 0, Op.client_connected 3 0,
      Op.create_room 1 1 [2, 3] CallType.Video, Op.join_room 2 2 0] = true ∧
    roomIdentUniqueb (exec emptyDB [Op.client_connected 1 0, Op.client_connected 2 0,
      Op.client_connected 3 0, Op.create_room 1 1 [2, 3] CallType.Video,
      Op.join_room 2 2 0]).call_participants = true :=
  ⟨by decide, c2_room_ident_unique_of_wf _ (by decide)⟩

/-- C2 counterexample: `create_room` accepts a duplicated target (`[2, 2]`)
and inserts two `Invited` rows with the same `(room_id, identity)` pair, so
the claim over arbitrary targets vectors of length 1..15 is false. -/
theorem c2_counterexample :
    roomIdentUniqueb (exec emptyDB
      [Op.client_connected 1 0, Op.client_connected 2 0,
       Op.create_room 1 1 [2, 2] CallType.Voice]).call_participants = false := by
  decide

/-- When no `Joined` row remains, cleanup removes every row of the room and
the room itself. -/
theorem cleanup_wipes (s : DB) (room_id : Nat)
    (hnoj : s.call_participants.any (fun p => p.room_id == room_id &&
      p.state == ParticipantState.Joined) = false) :
    ((cleanup_room_if_empty s room_id).call_participants.any
      (fun p => p.room_id == room_id)) = false ∧
    ((cleanup_room_if_empty s room_id).call_rooms.any
      (fun r => r.room_id == room_id)) = false := by
  simp only [cleanup_room_if_empty]
  split
  · rename_i hj
    rw [hnoj] at hj
    exact absurd hj (by simp)
  · constructor
    · rw [List.any_eq_false]
      intro p hp
      rw [List.mem_filter] at hp
      simpa using hp.2
    · rw [List.any_eq_false]
      intro r hr
      rw [List.mem_filter] at hr
      simpa using hr.2

/-- C3: a `leave_room` or `kick_participant` call that removes the room's
last `Joined` row deletes the `CallRoom` row and every remaining row for
that room within the same operation, and `cleanup_room_if_empty` on a room
with no remaining rows (and no room row) changes nothing. -/
theorem c3_cleanup_cascade (s : DB) (who kicker target room_id : Nat) :
    ((leave_room who room_id s).1 = Except.ok () →
      ((leave_room who room_id s).2.call_participants.any
        (fun p => p.room_id == room_id && p.state == ParticipantState.Joined)) = false →
      ((leave_room who room_id s).2.call_participants.any
        (fun p => p.room_id == room_id)) = false ∧
      ((leave_room who room_id s).2.call_rooms.any
        (fun r => r.room_id == room_id)) = false) ∧
    ((kick_participant kicker room_id target s).1 = Except.ok () →
      ((kick_participant kicker room_id target s).2.call_participants.any
        (fun p => p.room_id == room_id && p.state == ParticipantState.Joined)) = false →
      ((kick_participant kicker room_id target s).2.call_participants.any
        (fun p => p.room_id == room_id)) = false ∧
      ((kick_participant kicker room_id target s).2.call_rooms.any
        (fun r => r.room_id == room_id)) = false) ∧
    ((s.call_participants.any (fun p => p.room_id == room_id)) = false →
      (s.call_rooms.any (fun r => r.room_id == room_id)) = false →
      cleanup_room_if_empty s room_id = s) := by
  refine ⟨?_, ?_, ?_⟩
  · -- leave_room
    simp only [leave_room]
    split
    · intro hok
      exact absurd hok (by simp)
    · rename_i participant hfind
      intro _ hnoj
      simp only at hnoj ⊢
      by_cases hjo : (deleteParticipantById s participant.id).call_participants.any
          (fun p => p.room_id == room_id && p.state == ParticipantState.Joined) = true
      · have hid : cleanup_room_if_empty (deleteParticipantById s participant.id) room_id =
            deleteParticipantById s participant.id := by
          simp only [cleanup_room_if_empty]
          rw [if_pos hjo]
        rw [hid] at hnoj
        rw [hnoj] at hjo
        exact absurd hjo (by simp)
      · rw [Bool.not_eq_true] at hjo
        exact cleanup_wipes _ room_id hjo
  · -- kick_participant
    simp only [kick_participant]
    split
    · intro hok
      exact absurd hok (by simp)
    · split
      · intro hok
        exact absurd hok (by simp)
      · split
        · intro hok
          exact absurd hok (by simp)
        · split
          · intro hok
            exact absurd hok (by simp)
          · rename_i participant hfind
            intro _ hnoj
            simp only at hnoj ⊢
            by_cases hjo : (deleteParticipantById s participant.id).call_participants.any
                (fun p => p.room_id == room_id && p.state == ParticipantState.Joined) = true
            · have hid : cleanup_room_if_empty (deleteParticipantById s participant.id)
                  room_id = deleteParticipantById s participant.id := by
                simp only [cleanup_room_if_empty]
                rw [if_pos hjo]
              rw [hid] at hnoj
              rw [hnoj] at hjo
              exact absurd hjo (by simp)
            · rw [Bool.not_eq_true] at hjo
              exact cleanup_wipes _ room_id hjo
  · -- idempotence on an already-clean room
    intro hnp hnr
    have h0 : s.call_participants.any (fun p => p.room_id == room_id &&
        p.state == ParticipantState.Joined) = false := by
      rw [List.any_eq_false] at hnp ⊢
      intro p hp hc
      simp only [Bool.and_eq_true] at hc
      exact hnp p hp hc.1
    simp only [cleanup_room_if_empty]
    rw [if_neg (by rw [h0]; simp)]
    have e1 : s.call_participants.filter (fun p => !(p.room_id == room_id)) =
        s.call_participants := by
      rw [List.filter_eq_self]
      intro p hp
      simpa using List.any_eq_false.mp hnp p hp
    have e2 : s.call_rooms.filter (fun r => !(r.room_id == room_id)) = s.call_rooms := by
      rw [List.filter_eq_self]
      intro r hr
      simpa using List.any_eq_false.mp hnr r hr
    rw [e1, e2]

theorem c3_cleanup_cascade_witness :
    (leave_room 1 0 (exec emptyDB [Op.client_connected 1 0, Op.client_connected 2 0,
      Op.create_room 1 1 [2] CallType.Voice])).1 = Except.ok () ∧
    ((leave_room 1 0 (exec emptyDB [Op.client_connected 1 0, Op.client_connected 2 0,
      Op.create_room 1 1 [2] CallType.Voice])).2.call_participants.any
        (fun p => p.room_id == 0 && p.state == ParticipantState.Joined)) = false ∧
    (((leave_room 1 0 (exec emptyDB [Op.client_connected 1 0, Op.client_connected 2 0,
      Op.create_room 1 1 [2] CallType.Voice])).2.call_participants.any
        (fun p => p.room_id == 0)) = false ∧
     ((leave_room 1 0 (exec emptyDB [Op.client_connected 1 0, Op.client_connected 2 0,
      Op.create_room 1 1 [2] CallType.Voice])).2.call_rooms.any
        (fun r => r.room_id == 0)) = false) :=
  ⟨by rfl, by rfl,
    (c3_cleanup_cascade (exec emptyDB [Op.client_connected 1 0, Op.client_connected 2 0,
      Op.create_room 1 1 [2] CallType.Voice]) 1 1 2 0).1 (by rfl) (by rfl)⟩

/-- Executable check of data-model invariant 2: `server_muted = true`
implies `muted = true` on every row. -/
def mutedInvb (parts : List CallParticipant) : Bool :=
  parts.all (fun p => !p.server_muted || p.muted)

theorem mutedInvb_filter {parts : List CallParticipant} (keep : CallParticipant → Bool)
    (h : mutedInvb parts = true) : mutedInvb (parts.filter keep) = true := by
  rw [mutedInvb, List.all_eq_true] at h ⊢
  intro p hp
  exact h p (List.mem_of_mem_filter hp)

theorem mutedInvb_append {parts : List CallParticipant} {r : CallParticipant}
    (h : mutedInvb parts = true) (hr : (!r.server_muted || r.muted) = true) :
    mutedInvb (parts ++ [r]) = true := by
  rw [mutedInvb, List.all_eq_true] at h ⊢
  intro p hp
  rcases List.mem_append.mp hp with hp | hp
  · exact h p hp
  · simp only [List.mem_singleton] at hp
    subst hp
    exact hr

theorem mutedInvb_map {parts : List CallParticipant} {f : CallParticipant → CallParticipant}
    (h : mutedInvb parts = true)
    (hf : ∀ p ∈ parts, (!(f p).server_muted || (f p).muted) = true) :
    mutedInvb (parts.map f) = true := by
  rw [mutedInvb, List.all_eq_true]
  intro p hp
  rcases List.mem_map.mp hp with ⟨q, hq, rfl⟩
  exact hf q hq

theorem mutedInvb_update {parts : List CallParticipant} (row : CallParticipant)
    (h : mutedInvb parts = true) (hrow : (!row.server_muted || row.muted) = true) :
    mutedInvb (parts.map (fun p => if p.id == row.id then row else p)) = true := by
  refine mutedInvb_map h (fun p hp => ?_)
  split
  · exact hrow
  · exact (List.all_eq_true.mp h) p hp

theorem mutedInvb_cleanup (s : DB) (room_id : Nat) (h : mutedInvb s.call_participants = true) :
    mutedInvb (cleanup_room_if_empty s room_id).call_participants = true := by
  simp only [cleanup_room_if_empty]
  split
  · exact h
  · exact mutedInvb_filter _ h

theorem mutedInvb_foldl_cleanup (rs : List Nat) :
    ∀ s : DB, mutedInvb s.call_participants = true →
      mutedInvb ((rs.foldl (fun st r => cleanup_room_if_empty st r) s)).call_participants
        = true := by
  induction rs with
  | nil => intro s h; exact h
  | cons r rs ih =>
    intro s h
    rw [List.foldl_cons]
    exact ih _ (mutedInvb_cleanup s r h)

/-- C4: `server_muted = true ⇒ muted = true` is preserved by every
operation — in particular `set_media_state` forces the stored `muted` to
`true` while the row is server-muted, and `set_participant_server_muted`
with `locked = true` also sets `muted`. -/
theorem c4_server_muted_forces_muted (s : DB) (op : Op)
    (h : mutedInvb s.call_participants = true) :
    mutedInvb (step s op).2.call_participants = true := by
  cases op with
  | init =>
    simp only [step, init]
    split <;> exact h
  | reset_media_settings =>
    simp only [step, reset_media_settings]
    split <;> exact h
  | client_connected who now =>
    simp only [step, client_connected]
    split <;> exact h
  | client_disconnected who =>
    exact mutedInvb_foldl_cleanup _ _ (mutedInvb_filter _ h)
  | set_nickname who nickname =>
    simp only [step, set_nickname]
    split
    · exact h
    · split
      · exact h
      · split <;> exact h
  | send_message who now text =>
    simp only [step, send_message]
    split
    · exact h
    · split <;> exact h
  | create_room creator now targets ct =>
    simp only [step, create_room]
    split
    · exact h
    · split
      · exact h
      · split
        · exact h
        · split
          · exact h
          · have hc : ∀ (ts : List Nat) (st : DB),
                mutedInvb st.call_participants = true →
                mutedInvb (insertInvites s.next_room_id creator st ts).call_participants
                  = true := by
              intro ts
              induction ts with
              | nil => intro st hst; exact hst
              | cons t ts ih =>
                intro st hst
                simp only [insertInvites]
                exact ih _ (mutedInvb_append hst (by simp))
            exact hc targets _ (mutedInvb_append h (by simp))
  | invite_to_room who room_id target =>
    simp only [step, invite_to_room]
    split
    · exact h
    · split
      · exact h
      · split
        · exact h
        · split
          · exact h
          · exact mutedInvb_append h (by simp)
  | join_room who now room_id =>
    simp only [step, join_room]
    split
    · exact h
    · rename_i participant hfind
      split
      · exact h
      · split
        · exact h
        · refine mutedInvb_map h (fun p hp => ?_)
          split
          · exact (List.all_eq_true.mp h) participant (List.mem_of_find?_eq_some hfind)
          · exact (List.all_eq_true.mp h) p hp
  | decline_invite who room_id =>
    simp only [step, decline_invite]
    split
    · exact h
    · split
      · exact h
      · exact mutedInvb_filter _ h
  | leave_room who room_id =>
    simp only [step, leave_room]
    split
    · exact h
    · exact mutedInvb_cleanup _ _ (mutedInvb_filter _ h)
  | send_audio_frame who room_id seq sr ch rms payload =>
    simp only [step, send_audio_frame]
    split
    · exact h
    · split
      · exact h
      · split <;> exact h
  | send_video_frame who room_id seq w ht iframe payload =>
    simp only [step, send_video_frame]
    split
    · exact h
    · split
      · exact h
      · split
        · exact h
        · split
          · exact h
          · split <;> exact h
  | set_media_state who room_id muted deafened cam_off =>
    simp only [step, set_media_state]
    cases hfind : s.call_participants.find?
        (fun p => p.room_id == room_id && p.identity == who &&
          p.state == ParticipantState.Joined) with
    | none => exact h
    | some participant =>
      refine mutedInvb_update _ h ?_
      cases hsm : participant.server_muted <;> simp [hsm]
  | mute_all who room_id =>
    simp only [step, mute_all]
    split
    · exact h
    · split
      · exact h
      · refine mutedInvb_map h (fun p hp => ?_)
        split
        · simp
        · exact (List.all_eq_true.mp h) p hp
  | unmute_all who room_id =>
    simp only [step, unmute_all]
    split
    · exact h
    · split
      · exact h
      · refine mutedInvb_map h (fun p hp => ?_)
        split
        · simp
        · exact (List.all_eq_true.mp h) p hp
  | kick_participant who room_id target =>
    simp only [step, kick_participant]
    split
    · exact h
    · split
      · exact h
      · split
        · exact h
        · split
          · exact h
          · exact mutedInvb_cleanup _ _ (mutedInvb_filter _ h)
  | set_participant_server_muted who room_id target locked =>
    simp only [step, set_participant_server_muted]
    split
    · exact h
    · split
      · exact h
      · split
        · exact h
        · cases hfind : s.call_participants.find?
              (fun p => p.room_id == room_id && p.identity == target &&
                p.state == ParticipantState.Joined) with
          | none => exact h
          | some participant =>
            refine mutedInvb_update _ h ?_
            cases locked with
            | true => simp
            | false =>
              have hx := (List.all_eq_true.mp h) participant
                (List.mem_of_find?_eq_some hfind)
              simpa using hx

/-- The `Invited` rows that the `create_room` target loop produces, with
their assigned auto-inc ids. -/
def invitedRowsFrom (room_id creator : Nat) : Nat → List Nat → List CallParticipant
  | _, [] => []
  | npid, t :: ts =>
    { id := npid, room_id := room_id, identity := t, state := ParticipantState.Invited
      invited_by := creator, joined_at := none, muted := false, deafened := false
      cam_off := false, server_muted := false } ::
      invitedRowsFrom room_id creator (npid + 1) ts

theorem insertInvites_parts (room_id creator : Nat) :
    ∀ (ts : List Nat) (s : DB), (insertInvites room_id creator s ts).call_participants =
      s.call_participants ++ invitedRowsFrom room_id creator s.next_participant_id ts := by
  intro ts
  induction ts with
  | nil => intro s; simp [insertInvites, invitedRowsFrom]
  | cons t ts ih =>
    intro s
    rw [insertInvites, invitedRowsFrom, ih]
    simp [insertParticipant, List.append_assoc]

theorem invitedRowsFrom_filter_room (room_id creator : Nat) :
    ∀ (ts : List Nat) (n : Nat), (invitedRowsFrom room_id creator n ts).filter
      (fun p => p.room_id == room_id) = invitedRowsFrom room_id creator n ts := by
  intro ts
  induction ts with
  | nil => intro n; rfl
  | cons t ts ih =>
    intro n
    rw [invitedRowsFrom, List.filter_cons_of_pos (by simp), ih]

theorem invitedRowsFrom_length (room_id creator : Nat) :
    ∀ (ts : List Nat) (n : Nat), (invitedRowsFrom room_id creator n ts).length = ts.length := by
  intro ts
  induction ts with
  | nil => intro n; rfl
  | cons t ts ih =>
    intro n
    rw [invitedRowsFrom, List.length_cons, ih]
    rfl

/-- C5: `create_room` fails on an empty targets vector, on more than 15
targets, and whenever the targets contain the creator; with 1..15 distinct
valid targets (all online, none `Joined` anywhere, creator not `Joined`
anywhere, fresh room id) it succeeds and the new room holds exactly one
`Joined` creator row (`joined_at = now`) followed by one `Invited` row per
target — `targets.length + 1` rows in total. -/
theorem c5_create_room_contract (s : DB) (creator now : Nat) (targets : List Nat)
    (ct : CallType) :
    (targets = [] → (create_room creator now targets ct s).1 = Except.error errNeedTarget) ∧
    (targets.length > 15 →
      (create_room creator now targets ct s).1 = Except.error errTooManyTargets) ∧
    (creator ∈ targets → ∃ e, (create_room creator now targets ct s).1 = Except.error e) ∧
    (1 ≤ targets.length → targets.length ≤ 15 → targets.Nodup →
      (s.call_participants.any (fun p => p.identity == creator &&
        p.state == ParticipantState.Joined)) = false →
      (∀ t ∈ targets, t ≠ creator ∧ (findUser s t).isSome = true ∧
        (s.call_participants.any (fun p => p.identity == t &&
          p.state == ParticipantState.Joined)) = false) →
      (∀ p ∈ s.call_participants, p.room_id ≠ s.next_room_id) →
      (create_room creator now targets ct s).1 = Except.ok () ∧
      (create_room creator now targets ct s).2.call_participants.filter
          (fun p => p.room_id == s.next_room_id) =
        ({ id := s.next_participant_id, room_id := s.next_room_id, identity := creator
           state := ParticipantState.Joined, invited_by := creator, joined_at := some now
           muted := false, deafened := false, cam_off := false, server_muted := false } ::
          invitedRowsFrom s.next_room_id creator (s.next_participant_id + 1) targets) ∧
      ((create_room creator now targets ct s).2.call_participants.filter
          (fun p => p.room_id == s.next_room_id)).length = targets.length + 1) := by
  refine ⟨?_, ?_, ?_, ?_⟩
  · intro h0
    subst h0
    rfl
  · intro h15
    have hne : targets.isEmpty = false := by
      cases targets with
      | nil => simp at h15
      | cons t ts => rfl
    rw [create_room, hne]
    simp only [Bool.false_eq_true, if_false]
    rw [if_pos h15]
  · intro hmem
    rw [create_room]
    split
    · exact ⟨errNeedTarget, rfl⟩
    · split
      · exact ⟨errTooManyTargets, rfl⟩
      · split
        · exact ⟨errAlreadyInCall, rfl⟩
        · split
          · rename_i e _
            exact ⟨e, rfl⟩
          · rename_i hct
            have := (checkTargets_eq_none_iff.mp hct creator hmem).1
            exact absurd rfl this
  · intro h1 h15 hnd hcre htargets hfresh
    have hne : targets.isEmpty = false := by
      cases targets with
      | nil => simp at h1
      | cons t ts => rfl
    have hn15 : ¬(targets.length > 15) := by omega
    have hct : checkTargets creator s targets = none :=
      checkTargets_eq_none_iff.mpr htargets
    have heq : create_room creator now targets ct s =
        (Except.ok (), insertInvites s.next_room_id creator
          (insertParticipant
            { s with
              next_room_id := s.next_room_id + 1
              call_rooms := s.call_rooms ++
                [{ room_id := s.next_room_id, call_type := ct, created_at := now
                   creator := creator }] }
            { id := 0, room_id := s.next_room_id, identity := creator
              state := ParticipantState.Joined, invited_by := creator, joined_at := some now
              muted := false, deafened := false, cam_off := false, server_muted := false })
          targets) := by
      rw [create_room, hne]
      simp only [Bool.false_eq_true, if_false]
      rw [if_neg hn15, hcre]
      simp only [Bool.false_eq_true, if_false]
      rw [hct]
    refine ⟨by rw [heq], ?_, ?_⟩
    · rw [heq]
      rw [insertInvites_parts]
      rw [List.filter_append]
      have e0 : (insertParticipant
          { s with
            next_room_id := s.next_room_id + 1
            call_rooms := s.call_rooms ++
              [{ room_id := s.next_room_id, call_type := ct, created_at := now
                 creator := creator }] }
          { id := 0, room_id := s.next_room_id, identity := creator
            state := ParticipantState.Joined, invited_by := creator, joined_at := some now
            muted := false, deafened := false, cam_off := false, server_muted := false
            }).call_participants.filter (fun p => p.room_id == s.next_room_id) =
          [{ id := s.next_participant_id, room_id := s.next_room_id, identity := creator
             state := ParticipantState.Joined, invited_by := creator, joined_at := some now
             muted := false, deafened := false, cam_off := false, server_muted := false }] := by
        simp only [insertParticipant]
        rw [List.filter_append]
        have e1 : s.call_participants.filter (fun p => p.room_id == s.next_room_id) = [] := by
          rw [List.filter_eq_nil_iff]
          intro p hp
          simpa using hfresh p hp
        rw [e1, List.nil_append, List.filter_cons_of_pos (by simp)]
        rfl
      rw [e0, invitedRowsFrom_filter_room]
      rfl
    · rw [heq]
      rw [insertInvites_parts]
      rw [List.filter_append]
      have e0 : (insertParticipant
          { s with
            next_room_id := s.next_room_id + 1
            call_rooms := s.call_rooms ++
              [{ room_id := s.next_room_id, call_type := ct, created_at := now
                 creator := creator }] }
          { id := 0, room_id := s.next_room_id, identity := creator
            state := ParticipantState.Joined, invited_by := creator, joined_at := some now
            muted := false, deafened := false, cam_off := false, server_muted := false
            }).call_participants.filter (fun p => p.room_id == s.next_room_id) =
          [{ id := s.next_participant_id, room_id := s.next_room_id, identity := creator
             state := ParticipantState.Joined, invited_by := creator, joined_at := some now
             muted := false, deafened := false, cam_off := false, server_muted := false }] := by
        simp only [insertParticipant]
        rw [List.filter_append]
        have e1 : s.call_participants.filter (fun p => p.room_id == s.next_room_id) = [] := by
          rw [List.filter_eq_nil_iff]
          intro p hp
          simpa using hfresh p hp
        rw [e1, List.nil_append, List.filter_cons_of_pos (by simp)]
        rfl
      rw [e0, invitedRowsFrom_filter_room]
      rw [List.length_append, List.length_singleton, invitedRowsFrom_length]
      omega

theorem c5_create_room_contract_witness :
    1 ≤ [2, 3].length ∧ [2, 3].length ≤ 15 ∧ ([2, 3] : List Nat).Nodup ∧
    ((exec emptyDB [Op.client_connected 1 0, Op.client_connected 2 0,
      Op.client_connected 3 0]).call_participants.any (fun p => p.identity == 1 &&
        p.state == ParticipantState.Joined)) = false ∧
    ((create_room 1 5 [2, 3] CallType.Video (exec emptyDB [Op.client_connected 1 0,
      Op.client_connected 2 0, Op.client_connected 3 0])).1 = Except.ok () ∧
     ((create_room 1 5 [2, 3] CallType.Video (exec emptyDB [Op.client_connected 1 0,
      Op.client_connected 2 0, Op.client_connected 3 0])).2.call_participants.filter
        (fun p => p.room_id == 0)).length = 3) := by
  refine ⟨by decide, by decide, by decide, by rfl, ?_⟩
  have hc := (c5_create_room_contract (exec emptyDB [Op.client_connected 1 0,
    Op.client_connected 2 0, Op.client_connected 3 0]) 1 5 [2, 3] CallType.Video).2.2.2
    (by decide) (by decide) (by decide) (by rfl) (by decide) (by decide)
  exact ⟨hc.1, hc.2.2⟩

theorem c4_server_muted_forces_muted_witness :
    mutedInvb (exec emptyDB [Op.client_connected 1 0, Op.client_connected 2 0,
      Op.create_room 1 1 [2] CallType.Voice, Op.join_room 2 2 0,
      Op.mute_all 1 0]).call_participants = true ∧
    mutedInvb (step (exec emptyDB [Op.client_connected 1 0, Op.client_connected 2 0,
      Op.create_room 1 1 [2] CallType.Voice, Op.join_room 2 2 0, Op.mute_all 1 0])
      (Op.set_media_state 2 0 false false false)).2.call_participants = true :=
  ⟨by decide,
    c4_server_muted_forces_muted _ (Op.set_media_state 2 0 false false false) (by decide)⟩


/-- C6: `send_audio_frame` from a muted or server-muted joined participant
returns success and inserts no `AudioFrameEvent` (the whole store is
unchanged); from an unmuted joined participant whose payload exceeds the
audio size bound it returns the ValidationError and inserts no event. -/
theorem c6_audio_gate (s : DB) (who room_id seq sr ch : Nat) (rms : Rat)
    (payload : List Nat) (p : CallParticipant)
    (hfind : s.call_participants.find? (fun q => q.room_id == room_id &&
      q.identity == who && q.state == ParticipantState.Joined) = some p) :
    ((p.muted || p.server_muted) = true →
      send_audio_frame who room_id seq sr ch rms payload s = (Except.ok (), s)) ∧
    ((p.muted || p.server_muted) = false → payload.length > 10000 →
      send_audio_frame who room_id seq sr ch rms payload s =
        (Except.error errAudioTooLarge, s)) := by
  constructor
  · intro hm
    simp only [send_audio_frame, hfind]
    rw [if_pos hm]
  · intro hm hlen
    simp only [send_audio_frame, hfind]
    rw [if_neg (by rw [hm]; simp), if_pos hlen]

theorem c6_audio_gate_witness :
    ((exec emptyDB [Op.client_connected 1 0, Op.client_connected 2 0,
      Op.create_room 1 1 [2] CallType.Voice, Op.join_room 2 2 0,
      Op.mute_all 1 0]).call_participants.find? (fun q => q.room_id == 0 &&
        q.identity == 2 && q.state == ParticipantState.Joined) = some
      { id := 2, room_id := 0, identity := 2, state := ParticipantState.Joined
        invited_by := 1, joined_at := some 2, muted := true, deafened := false
        cam_off := false, server_muted := true }) ∧
    send_audio_frame 2 0 7 48000 1 0 [1, 2, 3] (exec emptyDB [Op.client_connected 1 0,
      Op.client_connected 2 0, Op.create_room 1 1 [2] CallType.Voice, Op.join_room 2 2 0,
      Op.mute_all 1 0]) =
      (Except.ok (), exec emptyDB [Op.client_connected 1 0, Op.client_connected 2 0,
        Op.create_room 1 1 [2] CallType.Voice, Op.join_room 2 2 0, Op.mute_all 1 0]) :=
  ⟨by rfl,
    (c6_audio_gate (exec emptyDB [Op.client_connected 1 0, Op.client_connected 2 0,
      Op.create_room 1 1 [2] CallType.Voice, Op.join_room 2 2 0, Op.mute_all 1 0])
      2 0 7 48000 1 0 [1, 2, 3]
      { id := 2, room_id := 0, identity := 2, state := ParticipantState.Joined
        invited_by := 1, joined_at := some 2, muted := true, deafened := false
        cam_off := false, server_muted := true } (by rfl)).1 (by rfl)⟩

/-- C7: `send_video_frame` on a room whose `call_type` is `Voice` fails with
the wrong-call-type StateError, regardless of the sender's participant
state (the participant lookup is never reached). -/
theorem c7_video_on_voice_room_fails (s : DB) (who room_id seq w ht : Nat) (iframe : Bool)
    (payload : List Nat) (room : CallRoom)
    (hroom : findRoom s room_id = some room) (hv : room.call_type = CallType.Voice) :
    send_video_frame who room_id seq w ht iframe payload s =
      (Except.error errNotVideoRoom, s) := by
  simp only [send_video_frame, hroom]
  rw [if_pos (by rw [hv]; decide)]

theorem c7_video_on_voice_room_fails_witness :
    findRoom (exec emptyDB [Op.client_connected 1 0, Op.client_connected 2 0,
      Op.create_room 1 1 [2] CallType.Voice]) 0 = some
      { room_id := 0, call_type := CallType.Voice, created_at := 1, creator := 1 } ∧
    send_video_frame 3 0 0 640 480 true [] (exec emptyDB [Op.client_connected 1 0,
      Op.client_connected 2 0, Op.create_room 1 1 [2] CallType.Voice]) =
      (Except.error errNotVideoRoom, exec emptyDB [Op.client_connected 1 0,
        Op.client_connected 2 0, Op.create_room 1 1 [2] CallType.Voice]) :=
  ⟨by rfl,
    c7_video_on_voice_room_fails (exec emptyDB [Op.client_connected 1 0,
      Op.client_connected 2 0, Op.create_room 1 1 [2] CallType.Voice]) 3 0 0 640 480 true []
      { room_id := 0, call_type := CallType.Voice, created_at := 1, creator := 1 }
      (by rfl) rfl⟩

/-- C8: every operation returns success or exactly one error value
(`Except String Unit`), and an operation that returns an error leaves the
whole store unchanged — every error exit precedes the first mutation. -/
theorem c8_failed_op_rolls_back (s : DB) (op : Op) (e : String)
    (h : (step s op).1 = Except.error e) : (step s op).2 = s := by
  revert h
  cases op
  all_goals
    simp only [step, init, reset_media_settings, client_connected, client_disconnected,
      set_nickname, send_message, create_room, invite_to_room, join_room, decline_invite,
      leave_room, send_audio_frame, send_video_frame, set_media_state, mute_all, unmute_all,
      kick_participant, set_participant_server_muted]
  all_goals repeat' split
  all_goals
    first
      | exact fun _ => rfl
      | (intro h; simp at h)

theorem c8_failed_op_rolls_back_witness :
    (step emptyDB (Op.join_room 1 0 0)).1 = Except.error errNotInvited ∧
    (step emptyDB (Op.join_room 1 0 0)).2 = emptyDB :=
  ⟨by rfl, c8_failed_op_rolls_back emptyDB (Op.join_room 1 0 0) errNotInvited (by rfl)⟩

/-- A store whose singleton settings row carries frame-size bounds smaller
than the gates' hardcoded constants: one Video room, one joined unmuted
participant. -/
def dbC9 : DB where
  users := [{ identity := 1, nickname := "u", connected_at := 0 }]
  chat_messages := []
  next_message_id := 1
  call_rooms := [{ room_id := 0, call_type := CallType.Video, created_at := 0, creator := 1 }]
  call_participants :=
    [{ id := 1, room_id := 0, identity := 1, state := ParticipantState.Joined
       invited_by := 1, joined_at := some 0, muted := false, deafened := false
       cam_off := false, server_muted := false }]
  next_participant_id := 2
  next_room_id := 1
  media_settings :=
    [{ id := 1, audio_target_sample_rate := 48000, audio_frame_ms := 20
       audio_max_frame_bytes := 10, audio_talking_rms_threshold := 0, video_width := 1280
       video_height := 720, video_fps := 15, video_jpeg_quality := 0
       video_max_frame_bytes := 10, video_iframe_interval := 15 }]
  audio_frame_events := []
  video_frame_events := []

/-- C9 (code bug): the frame gates bound payloads by the hardcoded
constants `10_000` / `200_000`, not by the settings row: with
`audio_max_frame_bytes = 10` and `video_max_frame_bytes = 10` a 20-byte
frame from an unmuted joined participant is accepted and emitted, although
it exceeds the bound stored in the singleton settings record. -/
theorem c9_gate_ignores_settings :
    (send_audio_frame 1 0 0 48000 1 0 (List.replicate 20 0) dbC9).1 = Except.ok () ∧
    (send_audio_frame 1 0 0 48000 1 0
      (List.replicate 20 0) dbC9).2.audio_frame_events.length = 1 ∧
    (send_video_frame 1 0 0 640 480 true (List.replicate 20 0) dbC9).1 = Except.ok () ∧
    (send_video_frame 1 0 0 640 480 true
      (List.replicate 20 0) dbC9).2.video_frame_events.length = 1 ∧
    ∀ m ∈ dbC9.media_settings, (List.replicate 20 (0 : Nat)).length > m.audio_max_frame_bytes ∧
      (List.replicate 20 (0 : Nat)).length > m.video_max_frame_bytes :=
  ⟨by rfl, by rfl, by rfl, by rfl, by decide⟩

/-- C10: `mute_all`, `unmute_all`, `kick_participant` and
`set_participant_server_muted` authorize solely by comparison with
`CallRoom.creator`: whenever the room exists and the caller equals its
creator, they pass authorization — and succeed if their remaining target
lookups succeed — even when the caller holds no `CallParticipant` row in
the room. -/
theorem c10_host_auth_by_creator_only (s : DB) (who room_id target : Nat) (locked : Bool)
    (room : CallRoom) (hroom : findRoom s room_id = some room) (hcr : room.creator = who)
    (hnorow : (s.call_participants.any (fun p => p.room_id == room_id &&
      p.identity == who)) = false) :
    (mute_all who room_id s).1 = Except.ok () ∧
    (unmute_all who room_id s).1 = Except.ok () ∧
    (target ≠ who →
      (s.call_participants.find? (fun p => p.room_id == room_id &&
        p.identity == target)).isSome = true →
      (kick_participant who room_id target s).1 = Except.ok ()) ∧
    (target ≠ who →
      (s.call_participants.find? (fun p => p.room_id == room_id && p.identity == target &&
        p.state == ParticipantState.Joined)).isSome = true →
      (set_participant_server_muted who room_id target locked s).1 = Except.ok ()) := by
  refine ⟨?_, ?_, ?_, ?_⟩
  · simp only [mute_all, hroom]
    rw [if_neg (not_not_intro hcr)]
  · simp only [unmute_all, hroom]
    rw [if_neg (not_not_intro hcr)]
  · intro htw hfind
    simp only [kick_participant, hroom]
    rw [if_neg (not_not_intro hcr), if_neg (by simpa using fun hx => htw hx)]
    cases hf : s.call_participants.find? (fun p => p.room_id == room_id &&
        p.identity == target) with
    | none =>
      rw [hf] at hfind
      exact absurd hfind (by simp)
    | some q =>
      simp only [hf]
  · intro htw hfind
    simp only [set_participant_server_muted, hroom]
    rw [if_neg (not_not_intro hcr), if_neg (by simpa using fun hx => htw hx)]
    cases hf : s.call_participants.find? (fun p => p.room_id == room_id &&
        p.identity == target && p.state == ParticipantState.Joined) with
    | none =>
      rw [hf] at hfind
      exact absurd hfind (by simp)
    | some q =>
      simp only [hf]

theorem c10_host_auth_by_creator_only_witness :
    findRoom (exec emptyDB [Op.client_connected 1 0, Op.client_connected 2 0,
      Op.client_connected 3 0, Op.create_room 1 1 [2, 3] CallType.Video,
      Op.join_room 2 2 0, Op.leave_room 1 0]) 0 = some
      { room_id := 0, call_type := CallType.Video, created_at := 1, creator := 1 } ∧
    ((exec emptyDB [Op.client_connected 1 0, Op.client_connected 2 0,
      Op.client_connected 3 0, Op.create_room 1 1 [2, 3] CallType.Video,
      Op.join_room 2 2 0, Op.leave_room 1 0]).call_participants.any
        (fun p => p.room_id == 0 && p.identity == 1)) = false ∧
    (mute_all 1 0 (exec emptyDB [Op.client_connected 1 0, Op.client_connected 2 0,
      Op.client_connected 3 0, Op.create_room 1 1 [2, 3] CallType.Video,
      Op.join_room 2 2 0, Op.leave_room 1 0])).1 = Except.ok () ∧
    (kick_participant 1 0 2 (exec emptyDB [Op.client_connected 1 0, Op.client_connected 2 0,
      Op.client_connected 3 0, Op.create_room 1 1 [2, 3] CallType.Video,
      Op.join_room 2 2 0, Op.leave_room 1 0])).1 = Except.ok () ∧
    (set_participant_server_muted 1 0 2 true (exec emptyDB [Op.client_connected 1 0,
      Op.client_connected 2 0, Op.client_connected 3 0,
      Op.create_room 1 1 [2, 3] CallType.Video,
      Op.join_room 2 2 0, Op.leave_room 1 0])).1 = Except.ok () := by
  have hc := c10_host_auth_by_creator_only (exec emptyDB [Op.client_connected 1 0,
    Op.client_connected 2 0, Op.client_connected 3 0,
    Op.create_room 1 1 [2, 3] CallType.Video, Op.join_room 2 2 0, Op.leave_room 1 0])
    1 0 2 true { room_id := 0, call_type := CallType.Video, created_at := 1, creator := 1 }
    (by rfl) rfl (by rfl)
  exact ⟨by rfl, by rfl, hc.1, hc.2.2.1 (by decide) (by rfl), hc.2.2.2 (by decide) (by rfl)⟩

end SpaceChat
